import Mathlib

/-!
DanPa compiler core: tracked allocation arena and type classification.

A shallow embedding of `src/alloc.c` (the branch the preprocessor keeps) and of
the classification predicates of `src/types.h`, with the properties of the
specification proved about it.

Modelling conventions.

* An address is a natural number; `NULL` is address 0.
* The static variables of `alloc.c` form the record `Arena`.  The tracking array
  is split into its base address (`allocated_chunks`) and its contents
  (`slots i` is the C expression `allocated_chunks[i]`).
* The C library is an input: every call of an arena function receives, in a
  `Libc` record, the values that `malloc` and `realloc` hand back during that
  call.  A null result is a failed call.
* `chunk_count` and `chunk_capacity` are C `int`s. Their arithmetic
  (`++chunk_count`, `chunk_capacity + chunk_capacity/2`) is signed, so C gives it
  a meaning only as long as it does not overflow; the model computes it in the
  integers, and `no_overflow`, `Call.fits` and `run_fits` are the conditions
  under which these integers are the values of the C program.
  `allocated_memory += bytes` mixes `int` with `size_t` and ends in a narrowing
  conversion, which wraps; the model reduces it to 32 bits.
* The stores and loads through `allocated_chunks` are modelled on `slots` without
  a bounds check: that the indices stay below `chunk_capacity` is a property of
  the reachable states, not of the functions.
* `expand_array` stores what `realloc` returned without testing it, and so does
  the model.  After a failed `realloc` the tracking array is null and its old
  contents are out of reach: the store of line 60 and the loop of
  `cleanup_memory` then go through a null pointer, where the program dies; the
  model has the outcome `crashed` for it.  `Libc.alloc_ok`, `array_available`
  and `expansion_ok` are the assumptions that exclude it.  The loop of
  `danpa_realloc` has no such outcome: on a null array it reads the slots as
  null.
* `abort()` ends the run: the outcome `aborted` records what was written to
  `stderr` and the values of the static variables at that moment.
-/

namespace DanPa

/-! Part 1: the arena of `alloc.c`. -/

/-- Address of a block of memory, as the C library hands it out. -/
abbrev Ptr := Nat

/-- The null pointer. -/
def NULL : Ptr := 0

/-- Number of slots of the tracking array at first use (`#define INITIAL_MAX_CHUNKS 0x1000`). -/
def INITIAL_MAX_CHUNKS : Int := 0x1000

/-- Narrowing conversion to a 32-bit two's complement `int`. -/
def wrap_int (x : Int) : Int := (x + 2 ^ 31) % 2 ^ 32 - 2 ^ 31

/-- The static variables of `alloc.c`. -/
structure Arena where
  /-- Base address of the tracking array (`static void** allocated_chunks`). -/
  allocated_chunks : Ptr
  /-- Contents of the tracking array: `slots i` is `allocated_chunks[i]`. -/
  slots : Int → Ptr
  /-- Number of tracked chunks (`static int chunk_count`). -/
  chunk_count : Int
  /-- Number of slots of the tracking array (`static int chunk_capacity`). -/
  chunk_capacity : Int
  /-- Running total of the requested sizes (`static int allocated_memory`). -/
  allocated_memory : Int

/-- The arena at program start: C zero-initialises the static variables. -/
def Arena.initial : Arena :=
  { allocated_chunks := NULL, slots := fun _ => NULL, chunk_count := 0,
    chunk_capacity := 0, allocated_memory := 0 }

/-- Values handed back by the C library during one call of an arena function. -/
structure Libc where
  /-- Result of the `realloc` of the tracking array at first use (line 50). -/
  first_use : Ptr
  /-- Result of `malloc(bytes)` (line 53). -/
  malloc : Ptr
  /-- Result of the `realloc` of the tracking array when it grows (line 63). -/
  growth : Ptr
  /-- Result of `realloc(ptr, new_size)` on a chunk (line 79). -/
  realloc : Ptr

/-- Result of a call of `danpa_alloc` or `danpa_realloc`. -/
inductive Outcome where
  /-- The call returned `handle`, leaving the static variables as `arena`. -/
  | returned (handle : Ptr) (arena : Arena)
  /-- The call wrote `log` to `stderr` and called `abort()`. -/
  | aborted (log : String) (arena : Arena)
  /-- The call stored through the null tracking array (line 60) and the program died of the
  memory fault, the static variables being `arena` at that moment. -/
  | crashed (arena : Arena)

/-- Embedding of `expand_array` (lines 40-44); `r` is what `realloc` returned, stored untested.
A successful `realloc` keeps the contents of the slots. After a failed one (`r = NULL`) the
program holds no pointer to the old array any more: the registered entries are lost, and the
slots read as null. -/
def expand_array (s : Arena) (new_size : Int) (r : Ptr) : Arena :=
  { s with
    allocated_chunks := r,
    slots := if r = NULL then fun _ => NULL else s.slots,
    chunk_capacity := new_size }

/-- Embedding of `danpa_alloc` (lines 46-68). When the first-use `realloc` has failed, the
store `allocated_chunks[chunk_count] = ptr` of line 60 goes through a null pointer. -/
def danpa_alloc (s : Arena) (bytes : Nat) (libc : Libc) : Outcome :=
  let s1 := if s.allocated_chunks = NULL then expand_array s INITIAL_MAX_CHUNKS libc.first_use else s
  let ptr := libc.malloc
  if ptr = NULL then
    Outcome.aborted "memory allocation error\n" s1
  else if s1.allocated_chunks = NULL then
    Outcome.crashed s1
  else
    let s2 := { s1 with slots := Function.update s1.slots s1.chunk_count ptr }
    let s3 := { s2 with chunk_count := s2.chunk_count + 1 }
    let s4 :=
      if s3.chunk_count ≥ s3.chunk_capacity then
        expand_array s3 (s3.chunk_capacity + Int.tdiv s3.chunk_capacity 2) libc.growth
      else s3
    let s5 := { s4 with allocated_memory := wrap_int (s4.allocated_memory + bytes) }
    Outcome.returned ptr s5

/-- The loop of `danpa_realloc` (lines 75-82): starting at index `i` with `remaining`
iterations to go, the first index whose slot holds `ptr`. -/
def find_chunk (slots : Int → Ptr) (ptr : Ptr) : (remaining : Nat) → (i : Int) → Option Int
  | 0, _ => none
  | remaining + 1, i =>
    if ptr = slots i then some i else find_chunk slots ptr remaining (i + 1)

/-- Embedding of `danpa_realloc` (lines 70-86). The loop reads the slots as they are; a null
tracking array with a positive `chunk_count`, which only a failed `realloc` of the array leaves
behind, is given no outcome of its own here. -/
def danpa_realloc (s : Arena) (ptr : Ptr) (new_size : Nat) (libc : Libc) : Outcome :=
  if ptr = NULL then danpa_alloc s new_size libc
  else
    match find_chunk s.slots ptr s.chunk_count.toNat 0 with
    | some i =>
      let s1 := { s with slots := Function.update s.slots i libc.realloc }
      Outcome.returned (s1.slots i) s1
    | none => Outcome.aborted "memory reallocation error\n" s

/-- What `cleanup_memory` does, as seen from outside. -/
structure Cleanup where
  /-- The values of the four arguments handed to `printf` after the format (line 90). -/
  printed : Int × Int × Int × Int
  /-- The arguments of the calls of `free` in the loop (lines 92-95), in order. -/
  freed_chunks : List Ptr
  /-- The argument of the last call of `free` (line 97). -/
  freed_array : Ptr
  /-- Whether the loop read `allocated_chunks[0]` through a null pointer, at which the program
  dies having called `free` on nothing. -/
  crashed : Bool

/-- Embedding of `cleanup_memory` (lines 88-98); `ptr_size` is `sizeof(void*)`. With a null
tracking array and a positive `chunk_count` the first iteration of the loop reads through the
null pointer. -/
def cleanup_memory (ptr_size : Int) (s : Arena) : Cleanup :=
  if s.allocated_chunks = NULL ∧ 0 < s.chunk_count then
    { printed :=
        (s.allocated_memory, s.chunk_capacity * ptr_size, s.chunk_count, s.chunk_capacity),
      freed_chunks := [],
      freed_array := NULL,
      crashed := true }
  else
    { printed :=
        (s.allocated_memory, s.chunk_capacity * ptr_size, s.chunk_count, s.chunk_capacity),
      freed_chunks := (List.range s.chunk_count.toNat).map (fun (i : Nat) => s.slots (i : Int)),
      freed_array := s.allocated_chunks,
      crashed := false }

/-- The tracked chunks `allocated_chunks[0..chunk_count-1]`, in index order. -/
def tracked (s : Arena) : List Ptr :=
  (List.range s.chunk_count.toNat).map (fun (i : Nat) => s.slots (i : Int))

/-- Handle `p` is one of the tracked chunks. -/
def is_tracked (s : Arena) (p : Ptr) : Prop :=
  ∃ i : Int, 0 ≤ i ∧ i < s.chunk_count ∧ s.slots i = p

/-- The handle a call returned, if it returned. -/
def Outcome.handle : Outcome → Option Ptr
  | Outcome.returned h _ => some h
  | Outcome.aborted _ _ => none
  | Outcome.crashed _ => none

/-- The text a call logged before aborting, if it aborted. -/
def Outcome.log : Outcome → Option String
  | Outcome.returned _ _ => none
  | Outcome.aborted l _ => some l
  | Outcome.crashed _ => none

/-- The static variables a call left behind. -/
def Outcome.arena : Outcome → Arena
  | Outcome.returned _ s => s
  | Outcome.aborted _ s => s
  | Outcome.crashed s => s

/-- One call of the arena interface. -/
inductive Call where
  /-- The call `danpa_alloc(bytes)`. -/
  | alloc (bytes : Nat)
  /-- The call `danpa_realloc(ptr, new_size)`. -/
  | realloc (ptr : Ptr) (new_size : Nat)

/-- Performs one call on the arena `s`. -/
def Call.perform (c : Call) (s : Arena) (libc : Libc) : Outcome :=
  match c with
  | Call.alloc bytes => danpa_alloc s bytes libc
  | Call.realloc ptr new_size => danpa_realloc s ptr new_size libc

/-- Performs the calls in order, starting from `s`. When every call returns, the result is the
list of the handles returned, in call order, with the final arena; a call that aborts
or dies of a memory fault ends the run with `none`. -/
def run : Arena → List (Call × Libc) → Option (List Ptr × Arena)
  | s, [] => some ([], s)
  | s, (c, libc) :: rest =>
    match c.perform s libc with
    | Outcome.returned h s1 => (run s1 rest).map (fun r => (h :: r.1, r.2))
    | Outcome.aborted _ _ => none
    | Outcome.crashed _ => none

/-- A sequence of `danpa_alloc` requests (size and library results) as a sequence of calls. -/
def alloc_calls (reqs : List (Nat × Libc)) : List (Call × Libc) :=
  reqs.map (fun r => (Call.alloc r.1, r.2))

/-- The live handles after a call that returned `h`, given the handles live before it: `h`
becomes live, and a handle passed to `danpa_realloc` stops being live when the call returned
a different handle. -/
def live_after (live : List Ptr) (c : Call) (h : Ptr) : List Ptr :=
  match c with
  | Call.alloc _ => h :: live
  | Call.realloc ptr _ => h :: (if h = ptr then live else live.filter (fun q => q ≠ ptr))

/-- The C library keeps its contract in the call made on behalf of `c`: the block `malloc`
returns is not null and, as the blocks in `live` have not been freed, is none of them; what
`realloc` of a block returns is a block that is none of the live ones, or that same block
(resized in place), or null (a failed `realloc`, and for size 0 a `realloc` that frees). -/
def libc_ok (live : List Ptr) (c : Call) (libc : Libc) : Prop :=
  match c with
  | Call.alloc _ => libc.malloc ≠ NULL ∧ libc.malloc ∉ live
  | Call.realloc ptr _ =>
    if ptr = NULL then libc.malloc ≠ NULL ∧ libc.malloc ∉ live
    else libc.realloc = NULL ∨ libc.realloc = ptr ∨ libc.realloc ∉ live

instance libc_ok_decidable (live : List Ptr) (c : Call) (libc : Libc) :
    Decidable (libc_ok live c libc) :=
  match c with
  | Call.alloc _ => inferInstanceAs (Decidable (libc.malloc ≠ NULL ∧ libc.malloc ∉ live))
  | Call.realloc ptr _ =>
    inferInstanceAs (Decidable (if ptr = NULL then libc.malloc ≠ NULL ∧ libc.malloc ∉ live
      else libc.realloc = NULL ∨ libc.realloc = ptr ∨ libc.realloc ∉ live))

/-- The `realloc` of a chunk that call `c` makes, if it makes one, did not return null. -/
def realloc_nonnull (c : Call) (libc : Libc) : Prop :=
  match c with
  | Call.alloc _ => True
  | Call.realloc ptr _ => ptr ≠ NULL → libc.realloc ≠ NULL

instance realloc_nonnull_decidable (c : Call) (libc : Libc) :
    Decidable (realloc_nonnull c libc) :=
  match c with
  | Call.alloc _ => inferInstanceAs (Decidable True)
  | Call.realloc ptr _ => inferInstanceAs (Decidable (ptr ≠ NULL → libc.realloc ≠ NULL))

/-- Performs the calls in order, starting from the arena `s` with the handles `live`, keeping
the list of live handles up to date. The result is `none` unless every call returned and the
C library kept its contract in every call. -/
def run_live : Arena → List Ptr → List (Call × Libc) → Option (Arena × List Ptr)
  | s, live, [] => some (s, live)
  | s, live, (c, libc) :: rest =>
    if libc_ok live c libc then
      match c.perform s libc with
      | Outcome.returned h s1 => run_live s1 (live_after live c h) rest
      | Outcome.aborted _ _ => none
      | Outcome.crashed _ => none
    else none

/-- The tracked entries that are not null are pairwise distinct, they are the non-null
handles in `live`, and the null handle is tracked when it is in `live`. -/
structure LiveInv (s : Arena) (live : List Ptr) : Prop where
  count_nonneg : 0 ≤ s.chunk_count
  distinct : ∀ i j : Int, 0 ≤ i → i < s.chunk_count → 0 ≤ j → j < s.chunk_count →
    s.slots i = s.slots j → s.slots i ≠ NULL → i = j
  mem_iff : ∀ h : Ptr, h ≠ NULL → (h ∈ live ↔ is_tracked s h)
  null_tracked : NULL ∈ live → is_tracked s NULL

/-- Neither a tracked entry nor a handle in `live` is null. -/
structure NoNull (s : Arena) (live : List Ptr) : Prop where
  tracked_nonnull : ¬ is_tracked s NULL
  live_nonnull : NULL ∉ live

/-- The C library calls made by one `danpa_alloc` call all succeeded. -/
def Libc.alloc_ok (libc : Libc) : Prop :=
  libc.first_use ≠ NULL ∧ libc.malloc ≠ NULL ∧ libc.growth ≠ NULL

/-- Number of slots the tracking array holds when a `danpa_alloc` call on `s` re-sizes it at
line 63, which is what that `realloc` may have to copy; 0 when the call does not get there.
The first-use `realloc` of line 50 starts from a null array and copies nothing. -/
def copied_slots (s : Arena) (libc : Libc) : Int :=
  let s1 := if s.allocated_chunks = NULL then expand_array s INITIAL_MAX_CHUNKS libc.first_use else s
  if libc.malloc = NULL then 0
  else if s1.chunk_count + 1 ≥ s1.chunk_capacity then s1.chunk_capacity else 0

/-- Sum of `copied_slots` over a sequence of `danpa_alloc` calls performed in order from `s`. -/
def copied_total : Arena → List (Nat × Libc) → Int
  | _, [] => 0
  | s, (bytes, libc) :: rest =>
    copied_slots s libc + copied_total (danpa_alloc s bytes libc).arena rest

/-- The growth of the registry in numbers: after `k` expansions beyond the first-use one, the
capacity and the sum of the capacities those `k` expansions started from. -/
def growth_sequence : Nat → Nat × Nat
  | 0 => (4096, 0)
  | k + 1 =>
    ((growth_sequence k).1 + (growth_sequence k).1 / 2,
      (growth_sequence k).2 + (growth_sequence k).1)

/-- Slots copied by `m` successful allocations on an initialised arena that tracks `count`
chunks in `cap` slots. -/
def sim_cost : Nat → Nat → Nat → Nat
  | _, _, 0 => 0
  | count, cap, m + 1 =>
    if cap ≤ count + 1 then cap + sim_cost (count + 1) (cap + cap / 2) m
    else sim_cost (count + 1) cap m

/-- Checks, for `j` expansions in a row starting at capacity `cap` with `total` slots copied
before, that the slots copied up to and including each expansion are at most three times the
capacity it started from. -/
def within_bound : Nat → Nat → Nat → Bool
  | 0, _, _ => true
  | j + 1, cap, total =>
    decide (total + cap ≤ 3 * cap) && within_bound j (cap + cap / 2) (total + cap)

/-- A sequence of `n` allocation requests of 8 bytes each, the C library returning a new
chunk each time (16, 32, 48, ...) and keeping the tracking array at address 8. -/
def fresh_requests (n : Nat) : List (Nat × Libc) :=
  (List.range n).map (fun i => (8, (⟨8, 16 + 16 * i, 8, 0⟩ : Libc)))

/-- A run of six calls: two allocations (chunks 16 and 32), chunk 16 moved to 48 by
`danpa_realloc`, chunk 32 resized in place, address 16 handed out again by `malloc`, and one
allocation through `danpa_realloc(NULL, 4)`. -/
def sample_calls : List (Call × Libc) :=
  [(Call.alloc 4, ⟨8, 16, 8, 0⟩), (Call.alloc 4, ⟨8, 32, 8, 0⟩),
   (Call.realloc 16 12, ⟨8, 0, 8, 48⟩), (Call.realloc 32 2, ⟨8, 0, 8, 32⟩),
   (Call.alloc 4, ⟨8, 16, 8, 0⟩), (Call.realloc NULL 4, ⟨8, 64, 8, 0⟩)]

/-- Capacity of the tracking array once a `danpa_alloc` call on `s` is past the first-use
initialisation of lines 48-51. -/
def first_use_capacity (s : Arena) : Int :=
  if s.allocated_chunks = NULL then INITIAL_MAX_CHUNKS else s.chunk_capacity

/-- Largest value of a C `int` (32 bits). -/
def INT_MAX : Int := 2147483647

/-- Smallest value of a C `int` (32 bits). -/
def INT_MIN : Int := -2147483648

/-- The integer `x` is a value of the C type `int`. -/
def fits_int (x : Int) : Prop := INT_MIN ≤ x ∧ x ≤ INT_MAX

instance fits_int_decidable (x : Int) : Decidable (fits_int x) :=
  inferInstanceAs (Decidable (INT_MIN ≤ x ∧ x ≤ INT_MAX))

/-- The `int` computations of a `danpa_alloc` call on `s` do not overflow: `++chunk_count`
(line 61) and, when the insertion crosses capacity, `chunk_capacity + chunk_capacity/2`
(line 63) have values of type `int`. Under this condition the integers the model computes are
the values the C program computes. -/
def no_overflow (s : Arena) : Prop :=
  fits_int (s.chunk_count + 1) ∧
  (first_use_capacity s ≤ s.chunk_count + 1 →
    fits_int (first_use_capacity s + Int.tdiv (first_use_capacity s) 2))

/-- There is a tracking array to store into at line 60 of a `danpa_alloc` call on `s`: the
arena has one already, or the first-use `realloc` succeeds. -/
def array_available (s : Arena) (libc : Libc) : Prop :=
  s.allocated_chunks ≠ NULL ∨ libc.first_use ≠ NULL

instance no_overflow_decidable (s : Arena) : Decidable (no_overflow s) :=
  inferInstanceAs (Decidable (fits_int (s.chunk_count + 1) ∧
    (first_use_capacity s ≤ s.chunk_count + 1 →
      fits_int (first_use_capacity s + Int.tdiv (first_use_capacity s) 2))))

/-- The `int` computations of call `c` on `s` do not overflow: those of `danpa_alloc` when the
call gets there; `danpa_realloc` on a non-null handle computes no counter. -/
def Call.fits (c : Call) (s : Arena) : Prop :=
  match c with
  | Call.alloc _ => no_overflow s
  | Call.realloc ptr _ => ptr = NULL → no_overflow s

instance Call.fits_decidable (c : Call) (s : Arena) : Decidable (c.fits s) :=
  match c with
  | Call.alloc _ => inferInstanceAs (Decidable (no_overflow s))
  | Call.realloc ptr _ => inferInstanceAs (Decidable (ptr = NULL → no_overflow s))

/-- Every call of a sequence performed in order from `s` computes its counters inside the range
of `int`: `Call.fits` holds of each call on the arena it starts from. -/
def run_fits : Arena → List (Call × Libc) → Prop
  | _, [] => True
  | s, (c, libc) :: rest => c.fits s ∧ run_fits (c.perform s libc).arena rest

instance run_fits_decidable : (s : Arena) → (calls : List (Call × Libc)) →
    Decidable (run_fits s calls)
  | _, [] => inferInstanceAs (Decidable True)
  | s, (c, libc) :: rest =>
    have := run_fits_decidable (c.perform s libc).arena rest
    inferInstanceAs (Decidable (c.fits s ∧ run_fits (c.perform s libc).arena rest))

/-- An arena that tracks the 4095 chunks 16, 32, ... in a tracking array of 4096 slots at
address 8: one insertion away from crossing capacity. -/
def almost_full : Arena :=
  { allocated_chunks := 8, slots := fun i => 16 + 16 * i.toNat, chunk_count := 4095,
    chunk_capacity := 4096, allocated_memory := 32760 }

/-- Bytes a call hands to `danpa_alloc`: the argument of `danpa_alloc(bytes)`, `new_size` for
`danpa_realloc(NULL, new_size)`, and nothing for `danpa_realloc` on a non-null handle. -/
def Call.allocated_bytes (c : Call) : Nat :=
  match c with
  | Call.alloc bytes => bytes
  | Call.realloc ptr new_size => if ptr = NULL then new_size else 0

/-- Sum of the byte sizes passed to `danpa_alloc` by a sequence of calls. -/
def allocated_bytes_total (calls : List (Call × Libc)) : Nat :=
  (calls.map (fun cl => cl.1.allocated_bytes)).sum

/-- The `realloc`s of the tracking array that call `c` may perform succeed: both results are
non-null for a call that gets to `danpa_alloc`; `danpa_realloc` on a non-null handle performs
none. -/
def expansion_ok (c : Call) (libc : Libc) : Prop :=
  match c with
  | Call.alloc _ => libc.first_use ≠ NULL ∧ libc.growth ≠ NULL
  | Call.realloc ptr _ => ptr = NULL → (libc.first_use ≠ NULL ∧ libc.growth ≠ NULL)

instance expansion_ok_decidable (c : Call) (libc : Libc) : Decidable (expansion_ok c libc) :=
  match c with
  | Call.alloc _ => inferInstanceAs (Decidable (libc.first_use ≠ NULL ∧ libc.growth ≠ NULL))
  | Call.realloc ptr _ =>
    inferInstanceAs (Decidable (ptr = NULL → (libc.first_use ≠ NULL ∧ libc.growth ≠ NULL)))

/-- The bounds of the registry: there is a tracking array, of at least `INITIAL_MAX_CHUNKS`
slots, and `chunk_count` is an index into it. -/
structure Bounds (s : Arena) : Prop where
  array : s.allocated_chunks ≠ NULL
  count_nonneg : 0 ≤ s.chunk_count
  count_lt : s.chunk_count < s.chunk_capacity
  capacity_ge : INITIAL_MAX_CHUNKS ≤ s.chunk_capacity

/-- Two calls after which the registry holds a null entry: an allocation of 4 bytes (chunk 16),
then `danpa_realloc(16, 0)` for which the C library's `realloc` returns null. -/
def null_tracking_calls : List (Call × Libc) :=
  [(Call.alloc 4, ⟨8, 16, 8, 0⟩), (Call.realloc 16 0, ⟨8, 0, 8, NULL⟩)]

/-- Three calls after which the registry holds a null entry that is not a live handle: an
allocation of 4 bytes (chunk 16), `danpa_realloc(16, 0)` for which the C library's `realloc`
returns null (glibc frees the chunk and returns null for size 0), and `danpa_realloc(NULL, 8)`,
which allocates chunk 32. -/
def stale_null_calls : List (Call × Libc) :=
  [(Call.alloc 4, ⟨8, 16, 8, 0⟩), (Call.realloc 16 0, ⟨8, 0, 8, NULL⟩),
   (Call.realloc NULL 8, ⟨8, 32, 8, 0⟩)]

/-! Part 1b: the type values of `types.h`. -/

/-- Values of `enum base_type_t`: the enumerators below, and from `DEFAULT_TYPES_END` on
the ids of the user structures. -/
abbrev base_type_t := Int

/-- Enumerator `INVALID_TYPE = -1`. -/
def INVALID_TYPE : base_type_t := -1
/-- Enumerator `INT = 0`. -/
def INT : base_type_t := 0
/-- Enumerator `REAL`. -/
def REAL : base_type_t := 1
/-- Enumerator `STR`. -/
def STR : base_type_t := 2
/-- Enumerator `VOID`. -/
def VOID : base_type_t := 3
/-- Enumerator `SPEC_ARRAY`. -/
def SPEC_ARRAY : base_type_t := 4
/-- Enumerator `POD_TYPES_END = SPEC_ARRAY`. -/
def POD_TYPES_END : base_type_t := SPEC_ARRAY
/-- Enumerator `SPEC_POINTER`. -/
def SPEC_POINTER : base_type_t := 5
/-- Enumerator `SPEC_NULL`. -/
def SPEC_NULL : base_type_t := 6
/-- Enumerator `SPEC_ANY`. -/
def SPEC_ANY : base_type_t := 7
/-- Enumerator `DEFAULT_TYPES_END`. -/
def DEFAULT_TYPES_END : base_type_t := 8

/-- The struct `pointer_type_t`; the pointer to the pointed type is an address. -/
structure pointer_type_t where
  pointed_type : Ptr
deriving DecidableEq

/-- The struct `optional_type_t`. -/
structure optional_type_t where
  opt_type : Ptr
deriving DecidableEq

/-- The struct `array_type_t`. -/
structure array_type_t where
  array_type : Ptr
  initial_size : Ptr
  is_empty : Int
deriving DecidableEq

/-- The struct `function_type_t`. -/
structure function_type_t where
  signature : Ptr
deriving DecidableEq

/-- The struct `type_t`: the `kind` tag selects the member of the anonymous union, so a type
value is one constructor per kind with that member as payload, and the `token` pointer. -/
inductive type_t where
  /-- Kind `BASIC = 0`, union member `base_type`. -/
  | BASIC (base_type : base_type_t) (token : Ptr)
  /-- Kind `POINTER = 1`, union member `pointer`. -/
  | POINTER (pointer : pointer_type_t) (token : Ptr)
  /-- Kind `ARRAY = 2`, union member `array`. -/
  | ARRAY (array : array_type_t) (token : Ptr)
  /-- Kind `FUNCTION = 3`, union member `function`. -/
  | FUNCTION (function : function_type_t) (token : Ptr)
  /-- Kind `OPTIONAL = 4`, union member `opt`. -/
  | OPTIONAL (opt : optional_type_t) (token : Ptr)
deriving DecidableEq

/-- The value of the `kind` field. -/
def type_t.kind : type_t → Nat
  | type_t.BASIC _ _ => 0
  | type_t.POINTER _ _ => 1
  | type_t.ARRAY _ _ => 2
  | type_t.FUNCTION _ _ => 3
  | type_t.OPTIONAL _ _ => 4

/-- Embedding of `is_struct` (types.h lines 126-131); the C `int` result is read as a truth
value. -/
def is_struct (type : type_t) : Bool :=
  match type with
  | type_t.BASIC base_type _ => decide (base_type ≥ DEFAULT_TYPES_END)
  | _ => false

/-- Embedding of `is_indirect_type` (types.h lines 132-138); the C `int` result is read as a
truth value. -/
def is_indirect_type (type : type_t) : Bool :=
  match type with
  | type_t.BASIC base_type _ => decide (base_type ≠ INT ∧ base_type ≠ REAL)
  | _ => true

/-! Part 2: lemmas about the scan of the tracking array. -/

theorem find_chunk_none (slots : Int → Ptr) (p : Ptr) (n : Nat) (i : Int) :
    find_chunk slots p n i = none ↔ ∀ k : Nat, k < n → slots (i + k) ≠ p := by
  induction n generalizing i with
  | zero => simp [find_chunk]
  | succ n ih =>
    simp only [find_chunk]
    by_cases h : p = slots i
    · simp only [h, if_true]
      constructor
      · intro hc; cases hc
      · intro hk
        have := hk 0 (Nat.succ_pos n)
        simp at this
    · simp only [h, if_false, ih]
      constructor
      · intro hk k hlt
        rcases Nat.eq_zero_or_pos k with rfl | hpos
        · simpa using fun e => h e.symm
        · have := hk (k - 1) (by omega)
          have e : i + 1 + ((k - 1 : Nat) : Int) = i + (k : Int) := by omega
          rwa [e] at this
      · intro hk k hlt
        have := hk (k + 1) (by omega)
        have e : i + ((k + 1 : Nat) : Int) = i + 1 + (k : Int) := by push_cast; ring
        rwa [e] at this

theorem find_chunk_some (slots : Int → Ptr) (p : Ptr) (n : Nat) (i j : Int)
    (h : find_chunk slots p n i = some j) :
    i ≤ j ∧ j < i + n ∧ slots j = p ∧ ∀ k : Int, i ≤ k → k < j → slots k ≠ p := by
  induction n generalizing i with
  | zero => simp [find_chunk] at h
  | succ n ih =>
    simp only [find_chunk] at h
    by_cases hp : p = slots i
    · simp only [hp, if_true, Option.some.injEq] at h
      subst h
      refine ⟨le_refl _, by push_cast; omega, hp.symm, ?_⟩
      intro k h1 h2; omega
    · simp only [hp, if_false] at h
      obtain ⟨h1, h2, h3, h4⟩ := ih (i + 1) h
      refine ⟨by omega, by push_cast; omega, h3, ?_⟩
      intro k hk1 hk2
      by_cases hki : k = i
      · subst hki; exact fun e => hp e.symm
      · exact h4 k (by omega) hk2

theorem find_chunk_untracked (s : Arena) (p : Ptr) (h : ¬ is_tracked s p) :
    find_chunk s.slots p s.chunk_count.toNat 0 = none := by
  rw [find_chunk_none]
  intro k hk hp
  apply h
  refine ⟨(k : Int), by omega, by omega, ?_⟩
  simpa using hp

theorem find_chunk_tracked (s : Arena) (p : Ptr) (h : is_tracked s p) :
    ∃ j : Int, find_chunk s.slots p s.chunk_count.toNat 0 = some j := by
  obtain ⟨i, h0, h1, h2⟩ := h
  cases hf : find_chunk s.slots p s.chunk_count.toNat 0 with
  | some j => exact ⟨j, rfl⟩
  | none =>
    rw [find_chunk_none] at hf
    have := hf i.toNat (by omega)
    have e : (0 : Int) + ((i.toNat : Nat) : Int) = i := by omega
    rw [e] at this
    exact absurd h2 this

/-! Part 3: single calls of `danpa_alloc` and `danpa_realloc`. -/

theorem danpa_alloc_returns (s : Arena) (bytes : Nat) (libc : Libc) (hm : libc.malloc ≠ NULL)
    (ha : array_available s libc) :
    ∃ s', danpa_alloc s bytes libc = Outcome.returned libc.malloc s' ∧
      s'.chunk_count = s.chunk_count + 1 := by
  unfold danpa_alloc
  by_cases h1 : s.allocated_chunks = NULL
  · have hf : libc.first_use ≠ NULL := by
      rcases ha with ha | ha
      · exact absurd h1 ha
      · exact ha
    simp only [h1, hm, hf, if_true, if_false, expand_array]
    refine ⟨_, rfl, ?_⟩
    split_ifs <;> rfl
  · simp only [h1, hm, if_false]
    refine ⟨_, rfl, ?_⟩
    split_ifs <;> rfl

theorem danpa_alloc_returned (s : Arena) (bytes : Nat) (libc : Libc) (hm : libc.malloc ≠ NULL)
    (ha : array_available s libc) (hg : libc.growth ≠ NULL) :
    ∃ s', danpa_alloc s bytes libc = Outcome.returned libc.malloc s' ∧
      s'.slots = Function.update s.slots s.chunk_count libc.malloc ∧
      s'.chunk_count = s.chunk_count + 1 ∧
      s'.allocated_chunks ≠ NULL := by
  unfold danpa_alloc
  by_cases h1 : s.allocated_chunks = NULL
  · have hf : libc.first_use ≠ NULL := by
      rcases ha with ha | ha
      · exact absurd h1 ha
      · exact ha
    simp only [h1, hm, hf, hg, if_true, if_false, expand_array]
    refine ⟨_, rfl, ?_, ?_, ?_⟩
    · split_ifs <;> rfl
    · split_ifs <;> rfl
    · split_ifs
      · exact hg
      · exact hf
  · simp only [h1, hm, hg, if_false, expand_array]
    refine ⟨_, rfl, ?_, ?_, ?_⟩
    · split_ifs <;> rfl
    · split_ifs <;> rfl
    · split_ifs
      · exact hg
      · exact h1

/-- C1, as the code has it: `danpa_realloc` on a handle that is neither null nor one of the
tracked chunks logs the reallocation error and aborts, whatever the size, and leaves every
static variable as it was. -/
theorem danpa_realloc_untracked_aborts (s : Arena) (p : Ptr) (n : Nat) (libc : Libc)
    (hp : p ≠ NULL) (hu : ¬ is_tracked s p) :
    danpa_realloc s p n libc = Outcome.aborted "memory reallocation error\n" s := by
  unfold danpa_realloc
  rw [if_neg hp, find_chunk_untracked s p hu]

/-- Witness for `danpa_realloc_untracked_aborts`: handle 9 on an arena tracking only chunk 5. -/
theorem danpa_realloc_untracked_aborts_witness :
    (9 : Ptr) ≠ NULL ∧
    ¬ is_tracked ⟨1, Function.update (fun _ => NULL) 0 5, 1, 4096, 8⟩ 9 ∧
    danpa_realloc ⟨1, Function.update (fun _ => NULL) 0 5, 1, 4096, 8⟩ 9 16 ⟨1, 7, 1, 7⟩ =
      Outcome.aborted "memory reallocation error\n"
        ⟨1, Function.update (fun _ => NULL) 0 5, 1, 4096, 8⟩ :=
  have h1 : (9 : Ptr) ≠ NULL := by decide
  have h2 : ¬ is_tracked ⟨1, Function.update (fun _ => NULL) 0 5, 1, 4096, 8⟩ 9 := by
    rintro ⟨i, h0, h1, h2⟩
    have hi : i = 0 := by simp only at h1; omega
    subst hi
    simp at h2
  ⟨h1, h2, danpa_realloc_untracked_aborts _ 9 16 ⟨1, 7, 1, 7⟩ h1 h2⟩

/-- C1 fails for the null handle: on the initial arena, where nothing is tracked,
`danpa_realloc(NULL, 8)` does not abort; it returns the chunk `malloc` produced and
registers it. -/
theorem danpa_realloc_null_untracked_returns :
    ¬ is_tracked Arena.initial NULL ∧
    (danpa_realloc Arena.initial NULL 8 ⟨1, 7, 1, 1⟩).handle = some 7 ∧
    (danpa_realloc Arena.initial NULL 8 ⟨1, 7, 1, 1⟩).log = none ∧
    (danpa_realloc Arena.initial NULL 8 ⟨1, 7, 1, 1⟩).arena.chunk_count = 1 ∧
    (danpa_realloc Arena.initial NULL 8 ⟨1, 7, 1, 1⟩).arena.slots 0 = 7 := by
  refine ⟨?_, by decide, by decide, by decide, by decide⟩
  rintro ⟨i, h0, h1, _⟩
  simp only [Arena.initial] at h1
  omega

/-- C2: when the underlying allocator succeeds (`malloc` and the `realloc`s of the tracking
array return non-null) and the `int` counters do not overflow, `danpa_alloc` returns the handle
`malloc` produced; the handle is stored at index old `chunk_count`, `chunk_count` grows by
exactly 1 and is still an `int`, every entry at another index (so every previously tracked
entry) is unchanged, the tracking array is not null afterwards, and on an arena with a
non-negative count the handle is one of the tracked chunks afterwards. -/
theorem danpa_alloc_tracks_handle (s : Arena) (bytes : Nat) (libc : Libc)
    (hok : libc.alloc_ok) (hint : no_overflow s) :
    ∃ s', danpa_alloc s bytes libc = Outcome.returned libc.malloc s' ∧
      s'.slots s.chunk_count = libc.malloc ∧
      s'.chunk_count = s.chunk_count + 1 ∧
      fits_int s'.chunk_count ∧
      (∀ i : Int, i ≠ s.chunk_count → s'.slots i = s.slots i) ∧
      (∀ i : Int, 0 ≤ i → i < s.chunk_count → s'.slots i = s.slots i) ∧
      s'.allocated_chunks ≠ NULL ∧
      (0 ≤ s.chunk_count → is_tracked s' libc.malloc) := by
  obtain ⟨hf, hm, hg⟩ := hok
  obtain ⟨s', h1, h2, h3, h4⟩ := danpa_alloc_returned s bytes libc hm (Or.inr hf) hg
  refine ⟨s', h1, by simp [h2], h3, by rw [h3]; exact hint.1, ?_, ?_, h4, ?_⟩
  · intro i hi; simp [h2, Function.update_noteq hi]
  · intro i _ hi; rw [h2, Function.update_noteq (by omega)]
  · intro h0
    exact ⟨s.chunk_count, h0, by omega, by simp [h2]⟩

/-- Witness for `danpa_alloc_tracks_handle`: the first allocation on the initial arena. -/
theorem danpa_alloc_tracks_handle_witness :
    (⟨1, 7, 1, 1⟩ : Libc).alloc_ok ∧ no_overflow Arena.initial ∧
    ∃ s', danpa_alloc Arena.initial 8 ⟨1, 7, 1, 1⟩ = Outcome.returned 7 s' ∧
      s'.slots 0 = 7 ∧ s'.chunk_count = 0 + 1 ∧
      fits_int s'.chunk_count ∧
      (∀ i : Int, i ≠ 0 → s'.slots i = Arena.initial.slots i) ∧
      (∀ i : Int, 0 ≤ i → i < 0 → s'.slots i = Arena.initial.slots i) ∧
      s'.allocated_chunks ≠ NULL ∧
      ((0 : Int) ≤ 0 → is_tracked s' 7) :=
  have hok : (⟨1, 7, 1, 1⟩ : Libc).alloc_ok := ⟨by decide, by decide, by decide⟩
  have hint : no_overflow Arena.initial := ⟨by decide, fun _ => by decide⟩
  ⟨hok, hint, danpa_alloc_tracks_handle Arena.initial 8 ⟨1, 7, 1, 1⟩ hok hint⟩

/-- C4 fails when the first-use `realloc` of the tracking array fails: on the initial arena,
with `malloc` returning the non-null chunk 7, `danpa_alloc` neither aborts with its log nor
returns a handle; it stores through the null array and the program dies there, with
`chunk_count` still 0. -/
theorem danpa_alloc_without_array_crashes :
    (⟨NULL, 7, 1, 1⟩ : Libc).malloc ≠ NULL ∧
    (danpa_alloc Arena.initial 8 ⟨NULL, 7, 1, 1⟩).handle = none ∧
    (danpa_alloc Arena.initial 8 ⟨NULL, 7, 1, 1⟩).log = none ∧
    (danpa_alloc Arena.initial 8 ⟨NULL, 7, 1, 1⟩).arena.chunk_count = 0 ∧
    (∃ t, danpa_alloc Arena.initial 8 ⟨NULL, 7, 1, 1⟩ = Outcome.crashed t) :=
  ⟨by decide, by decide, by decide, by decide, ⟨_, rfl⟩⟩

/-- C4, as the code has it: when there is a tracking array to store into (the arena has one, or
the first-use `realloc` succeeds) and the `int` computations of an insertion do not overflow,
`danpa_alloc` takes the fatal path exactly when `malloc` returns null. In that case it logs the
allocation error and aborts with no handle, the count and every slot as before; in every other
case it returns the non-null handle `malloc` produced, the new count being an `int`. A handle
it returns is never null. -/
theorem danpa_alloc_fatal_iff_malloc_null (s : Arena) (bytes : Nat) (libc : Libc)
    (ha : array_available s libc) (hint : libc.malloc ≠ NULL → no_overflow s) :
    ((danpa_alloc s bytes libc).log = some "memory allocation error\n" ↔ libc.malloc = NULL) ∧
    ((danpa_alloc s bytes libc).log ≠ none ↔ libc.malloc = NULL) ∧
    (libc.malloc = NULL →
      (danpa_alloc s bytes libc).handle = none ∧
      (danpa_alloc s bytes libc).arena.chunk_count = s.chunk_count ∧
      (danpa_alloc s bytes libc).arena.slots = s.slots ∧
      tracked (danpa_alloc s bytes libc).arena = tracked s) ∧
    (libc.malloc ≠ NULL →
      (danpa_alloc s bytes libc).handle = some libc.malloc ∧
      (danpa_alloc s bytes libc).log = none ∧
      fits_int (danpa_alloc s bytes libc).arena.chunk_count) ∧
    (∀ h, (danpa_alloc s bytes libc).handle = some h → h ≠ NULL) := by
  by_cases hm : libc.malloc = NULL
  · have e : danpa_alloc s bytes libc = Outcome.aborted "memory allocation error\n"
        (if s.allocated_chunks = NULL then expand_array s INITIAL_MAX_CHUNKS libc.first_use
          else s) := by
      unfold danpa_alloc; simp only [hm, if_true]
    have hc : (if s.allocated_chunks = NULL then expand_array s INITIAL_MAX_CHUNKS libc.first_use
          else s).chunk_count = s.chunk_count := by split_ifs <;> rfl
    have hs : (if s.allocated_chunks = NULL then expand_array s INITIAL_MAX_CHUNKS libc.first_use
          else s).slots = s.slots := by
      split_ifs with h1
      · have hf : libc.first_use ≠ NULL := by
          rcases ha with ha | ha
          · exact absurd h1 ha
          · exact ha
        simp only [expand_array, hf, if_false]
      · rfl
    rw [e]
    refine ⟨by simp [Outcome.log, hm], by simp [Outcome.log, hm], ?_, fun h => absurd hm h, ?_⟩
    · intro _
      refine ⟨rfl, hc, hs, ?_⟩
      simp only [tracked, Outcome.arena, hc, hs]
    · intro h hh; simp [Outcome.handle] at hh
  · obtain ⟨s', e, hc⟩ := danpa_alloc_returns s bytes libc hm ha
    rw [e]
    refine ⟨by simp [Outcome.log, hm], by simp [Outcome.log, hm], fun h => absurd h hm, ?_, ?_⟩
    · intro _
      refine ⟨rfl, rfl, ?_⟩
      simp only [Outcome.arena, hc]
      exact (hint hm).1
    · intro h hh
      simp only [Outcome.handle, Option.some.injEq] at hh
      rw [← hh]; exact hm

/-- Witness for `danpa_alloc_fatal_iff_malloc_null`: the first allocation on the initial arena,
the first-use `realloc` returning the array at address 1 and `malloc` the chunk 7. -/
theorem danpa_alloc_fatal_iff_malloc_null_witness :
    array_available Arena.initial ⟨1, 7, 1, 1⟩ ∧
    ((⟨1, 7, 1, 1⟩ : Libc).malloc ≠ NULL → no_overflow Arena.initial) ∧
    (((danpa_alloc Arena.initial 8 ⟨1, 7, 1, 1⟩).log = some "memory allocation error\n" ↔
        (⟨1, 7, 1, 1⟩ : Libc).malloc = NULL) ∧
    ((danpa_alloc Arena.initial 8 ⟨1, 7, 1, 1⟩).log ≠ none ↔
        (⟨1, 7, 1, 1⟩ : Libc).malloc = NULL) ∧
    ((⟨1, 7, 1, 1⟩ : Libc).malloc = NULL →
      (danpa_alloc Arena.initial 8 ⟨1, 7, 1, 1⟩).handle = none ∧
      (danpa_alloc Arena.initial 8 ⟨1, 7, 1, 1⟩).arena.chunk_count = Arena.initial.chunk_count ∧
      (danpa_alloc Arena.initial 8 ⟨1, 7, 1, 1⟩).arena.slots = Arena.initial.slots ∧
      tracked (danpa_alloc Arena.initial 8 ⟨1, 7, 1, 1⟩).arena = tracked Arena.initial) ∧
    ((⟨1, 7, 1, 1⟩ : Libc).malloc ≠ NULL →
      (danpa_alloc Arena.initial 8 ⟨1, 7, 1, 1⟩).handle = some (⟨1, 7, 1, 1⟩ : Libc).malloc ∧
      (danpa_alloc Arena.initial 8 ⟨1, 7, 1, 1⟩).log = none ∧
      fits_int (danpa_alloc Arena.initial 8 ⟨1, 7, 1, 1⟩).arena.chunk_count) ∧
    (∀ h, (danpa_alloc Arena.initial 8 ⟨1, 7, 1, 1⟩).handle = some h → h ≠ NULL)) :=
  have ha : array_available Arena.initial ⟨1, 7, 1, 1⟩ := Or.inr (by decide)
  have hint : (⟨1, 7, 1, 1⟩ : Libc).malloc ≠ NULL → no_overflow Arena.initial :=
    fun _ => by decide
  ⟨ha, hint, danpa_alloc_fatal_iff_malloc_null Arena.initial 8 ⟨1, 7, 1, 1⟩ ha hint⟩

/-- C5, the code at the failing input: the arena tracks chunk 5 only and the C library's
`realloc` returns null. `danpa_realloc(5, 16)` does not abort: it returns the null handle and
leaves a null entry in slot 0 of the registry; chunk 5 is tracked no more. -/
theorem danpa_realloc_exhausted_returns_null :
    is_tracked ⟨1, Function.update (fun _ => NULL) 0 5, 1, 4096, 8⟩ 5 ∧
    (danpa_realloc ⟨1, Function.update (fun _ => NULL) 0 5, 1, 4096, 8⟩ 5 16
      ⟨1, 7, 1, NULL⟩).log = none ∧
    (danpa_realloc ⟨1, Function.update (fun _ => NULL) 0 5, 1, 4096, 8⟩ 5 16
      ⟨1, 7, 1, NULL⟩).handle = some NULL ∧
    (danpa_realloc ⟨1, Function.update (fun _ => NULL) 0 5, 1, 4096, 8⟩ 5 16
      ⟨1, 7, 1, NULL⟩).arena.chunk_count = 1 ∧
    tracked (danpa_realloc ⟨1, Function.update (fun _ => NULL) 0 5, 1, 4096, 8⟩ 5 16
      ⟨1, 7, 1, NULL⟩).arena = [NULL] := by
  refine ⟨⟨0, by decide, by decide, by decide⟩, by decide, by decide, by decide, by decide⟩

/-- C6: `danpa_realloc` on a non-null tracked handle `p` returns what `realloc` produced; with
`i` the first index holding `p`, the returned handle is the one now stored at index `i` and is
tracked afterwards, every entry at another index is unchanged, and so are `chunk_count`,
`chunk_capacity`, the base address of the tracking array and `allocated_memory`. -/
theorem danpa_realloc_tracked_replaces_first (s : Arena) (p : Ptr) (n : Nat) (libc : Libc)
    (hp : p ≠ NULL) (ht : is_tracked s p) :
    ∃ (i : Int) (s' : Arena),
      0 ≤ i ∧ i < s.chunk_count ∧ s.slots i = p ∧
      (∀ k : Int, 0 ≤ k → k < i → s.slots k ≠ p) ∧
      danpa_realloc s p n libc = Outcome.returned libc.realloc s' ∧
      s'.slots i = libc.realloc ∧
      is_tracked s' libc.realloc ∧
      s'.chunk_count = s.chunk_count ∧
      s'.chunk_capacity = s.chunk_capacity ∧
      (∀ j : Int, j ≠ i → s'.slots j = s.slots j) ∧
      s'.allocated_chunks = s.allocated_chunks ∧
      s'.allocated_memory = s.allocated_memory := by
  obtain ⟨i, hi⟩ := find_chunk_tracked s p ht
  obtain ⟨h0, h1, h2, h3⟩ := find_chunk_some s.slots p _ 0 i hi
  have hlt : i < s.chunk_count := by omega
  refine ⟨i, { s with slots := Function.update s.slots i libc.realloc }, h0, hlt, h2, h3,
    ?_, by simp, ⟨i, h0, hlt, by simp⟩, rfl, rfl, ?_, rfl, rfl⟩
  · unfold danpa_realloc
    rw [if_neg hp, hi]
    simp
  · intro j hj
    simp [Function.update_noteq hj]

/-- Witness for `danpa_realloc_tracked_replaces_first`: chunk 5 of an arena tracking 5 and 6 is
moved to address 9. -/
theorem danpa_realloc_tracked_replaces_first_witness :
    ∃ (i : Int) (s' : Arena),
      0 ≤ i ∧ i < 2 ∧
      (Function.update (Function.update (fun _ => NULL) 0 5) 1 6 : Int → Ptr) i = 5 ∧
      (∀ k : Int, 0 ≤ k → k < i →
        (Function.update (Function.update (fun _ => NULL) 0 5) 1 6 : Int → Ptr) k ≠ 5) ∧
      danpa_realloc ⟨1, Function.update (Function.update (fun _ => NULL) 0 5) 1 6, 2, 4096, 16⟩
        5 32 ⟨1, 7, 1, 9⟩ = Outcome.returned 9 s' ∧
      s'.slots i = 9 ∧
      is_tracked s' 9 ∧
      s'.chunk_count = 2 ∧
      s'.chunk_capacity = 4096 ∧
      (∀ j : Int, j ≠ i → s'.slots j =
        (Function.update (Function.update (fun _ => NULL) 0 5) 1 6 : Int → Ptr) j) ∧
      s'.allocated_chunks = 1 ∧
      s'.allocated_memory = 16 :=
  danpa_realloc_tracked_replaces_first
    ⟨1, Function.update (Function.update (fun _ => NULL) 0 5) 1 6, 2, 4096, 16⟩ 5 32 ⟨1, 7, 1, 9⟩
    (by decide) ⟨0, by decide, by decide, by decide⟩

/-! Part 4: sequences of calls. -/

theorem tracked_length (s : Arena) : (tracked s).length = s.chunk_count.toNat := by
  simp [tracked]

theorem mem_tracked_iff (s : Arena) (p : Ptr) : p ∈ tracked s ↔ is_tracked s p := by
  unfold tracked is_tracked
  simp only [List.mem_map, List.mem_range]
  constructor
  · rintro ⟨k, hk, e⟩
    exact ⟨(k : Int), by omega, by omega, e⟩
  · rintro ⟨i, h0, h1, e⟩
    refine ⟨i.toNat, by omega, ?_⟩
    rw [Int.toNat_of_nonneg h0]; exact e

theorem tracked_push (s s' : Arena) (p : Ptr) (h0 : 0 ≤ s.chunk_count)
    (hs : s'.slots = Function.update s.slots s.chunk_count p)
    (hc : s'.chunk_count = s.chunk_count + 1) :
    tracked s' = tracked s ++ [p] := by
  unfold tracked
  have e : s'.chunk_count.toNat = s.chunk_count.toNat + 1 := by omega
  rw [e, List.range_succ, List.map_append, hs]
  congr 1
  · apply List.map_congr_left
    intro k hk
    rw [List.mem_range] at hk
    rw [Function.update_noteq (by omega)]
  · simp only [List.map_cons, List.map_nil]
    rw [Int.toNat_of_nonneg h0]; simp

theorem cleanup_memory_printed (ptr_size : Int) (s : Arena) :
    (cleanup_memory ptr_size s).printed =
      (s.allocated_memory, s.chunk_capacity * ptr_size, s.chunk_count, s.chunk_capacity) := by
  unfold cleanup_memory
  split_ifs <;> rfl

theorem cleanup_memory_completes (ptr_size : Int) (s : Arena)
    (h : s.allocated_chunks ≠ NULL ∨ s.chunk_count ≤ 0) :
    (cleanup_memory ptr_size s).freed_chunks = tracked s ∧
    (cleanup_memory ptr_size s).freed_array = s.allocated_chunks ∧
    (cleanup_memory ptr_size s).crashed = false := by
  have hc : ¬ (s.allocated_chunks = NULL ∧ 0 < s.chunk_count) := by
    rintro ⟨h1, h2⟩
    rcases h with h | h
    · exact h h1
    · omega
  unfold cleanup_memory
  rw [if_neg hc]
  exact ⟨rfl, rfl, rfl⟩

theorem danpa_alloc_array_nonnull (s : Arena) (bytes : Nat) (libc : Libc) (hok : libc.alloc_ok) :
    (danpa_alloc s bytes libc).arena.allocated_chunks ≠ NULL := by
  obtain ⟨hf, hm, hg⟩ := hok
  obtain ⟨s', e, _, _, h⟩ := danpa_alloc_returned s bytes libc hm (Or.inr hf) hg
  rw [e]
  exact h

theorem run_alloc_calls_array (reqs : List (Nat × Libc)) (hok : ∀ r ∈ reqs, r.2.alloc_ok)
    (hne : reqs ≠ []) :
    ∀ (s s' : Arena) (handles : List Ptr), run s (alloc_calls reqs) = some (handles, s') →
      s'.allocated_chunks ≠ NULL := by
  induction reqs with
  | nil => exact absurd rfl hne
  | cons r rest ih =>
    intro s s' handles e
    have hr := hok r (List.mem_cons_self _ _)
    obtain ⟨s1, e1, _, _, ha⟩ := danpa_alloc_returned s r.1 r.2 hr.2.1 (Or.inr hr.1) hr.2.2
    simp only [alloc_calls, List.map_cons, run, Call.perform, e1] at e
    cases rest with
    | nil =>
      simp only [List.map_nil, run, Option.map_some', Option.some.injEq, Prod.mk.injEq] at e
      rw [← e.2]; exact ha
    | cons r2 rest2 =>
      cases hrun : run s1 (alloc_calls (r2 :: rest2)) with
      | none =>
        simp only [alloc_calls] at hrun
        rw [hrun] at e; cases e
      | some res =>
        simp only [alloc_calls] at hrun
        rw [hrun] at e
        simp only [Option.map_some', Option.some.injEq, Prod.mk.injEq] at e
        rw [← e.2]
        exact ih (fun q hq => hok q (List.mem_cons_of_mem _ hq)) (List.cons_ne_nil _ _)
          s1 res.2 res.1 hrun

theorem run_alloc_calls (reqs : List (Nat × Libc)) (hok : ∀ r ∈ reqs, r.2.alloc_ok) :
    ∀ s : Arena, 0 ≤ s.chunk_count →
      ∃ s', run s (alloc_calls reqs) = some (reqs.map (fun r => r.2.malloc), s') ∧
        tracked s' = tracked s ++ reqs.map (fun r => r.2.malloc) ∧
        s'.chunk_count = s.chunk_count + reqs.length := by
  induction reqs with
  | nil => intro s _; exact ⟨s, rfl, by simp, by simp⟩
  | cons r rest ih =>
    intro s h0
    have hr := hok r (List.mem_cons_self _ _)
    obtain ⟨s1, e1, hs1, hc1, _⟩ := danpa_alloc_returned s r.1 r.2 hr.2.1 (Or.inr hr.1) hr.2.2
    obtain ⟨s', e2, ht, hc⟩ := ih (fun q hq => hok q (List.mem_cons_of_mem _ hq)) s1 (by omega)
    refine ⟨s', ?_, ?_, ?_⟩
    · simp only [alloc_calls, List.map_cons, run, Call.perform, e1]
      simp only [alloc_calls] at e2
      rw [e2]; rfl
    · rw [ht, tracked_push s s1 _ h0 hs1 hc1]; simp
    · rw [hc, hc1]; simp; ring

/-- C3: after any sequence of N successful `danpa_alloc` calls on the initial arena, all calls
have returned, and `cleanup_memory` calls `free` in its loop on exactly the N handles the
allocations returned, one call for each and in allocation order, on nothing else; its last
call of `free` is on the tracking array, which for N > 0 is a block the C library handed out. -/
theorem cleanup_memory_frees_each_allocation (ptr_size : Int) (reqs : List (Nat × Libc))
    (hok : ∀ r ∈ reqs, r.2.alloc_ok) :
    ∃ (handles : List Ptr) (s' : Arena),
      run Arena.initial (alloc_calls reqs) = some (handles, s') ∧
      handles = reqs.map (fun r => r.2.malloc) ∧
      (cleanup_memory ptr_size s').freed_chunks = handles ∧
      (cleanup_memory ptr_size s').freed_chunks.length = reqs.length ∧
      (cleanup_memory ptr_size s').freed_array = s'.allocated_chunks ∧
      (reqs ≠ [] → (cleanup_memory ptr_size s').freed_array ≠ NULL) := by
  obtain ⟨s', e, ht, hcount⟩ := run_alloc_calls reqs hok Arena.initial (le_refl _)
  have h0 : tracked Arena.initial = [] := by simp [tracked, Arena.initial]
  rw [h0, List.nil_append] at ht
  have harr : s'.allocated_chunks ≠ NULL ∨ s'.chunk_count ≤ 0 := by
    by_cases hne : reqs = []
    · right
      rw [hcount, hne]
      simp [Arena.initial]
    · left
      exact run_alloc_calls_array reqs hok hne _ _ _ e
  obtain ⟨hfc, hfa, _⟩ := cleanup_memory_completes ptr_size s' harr
  refine ⟨_, s', e, rfl, ?_, ?_, hfa, ?_⟩
  · rw [hfc, ht]
  · rw [hfc, ht]; simp
  · intro hne
    rw [hfa]
    exact run_alloc_calls_array reqs hok hne _ _ _ e

/-- Witness for `cleanup_memory_frees_each_allocation`: three allocations, returning the chunks
16, 32 and 48, with the tracking array at address 8. -/
theorem cleanup_memory_frees_each_allocation_witness :
    (∀ r ∈ [((4 : Nat), (⟨8, 16, 8, 0⟩ : Libc)), (4, ⟨8, 32, 8, 0⟩), (12, ⟨8, 48, 8, 0⟩)],
      r.2.alloc_ok) ∧
    ∃ (handles : List Ptr) (s' : Arena),
      run Arena.initial (alloc_calls [(4, ⟨8, 16, 8, 0⟩), (4, ⟨8, 32, 8, 0⟩), (12, ⟨8, 48, 8, 0⟩)])
        = some (handles, s') ∧
      handles = [((4 : Nat), (⟨8, 16, 8, 0⟩ : Libc)), (4, ⟨8, 32, 8, 0⟩), (12, ⟨8, 48, 8, 0⟩)].map
        (fun r => r.2.malloc) ∧
      (cleanup_memory 8 s').freed_chunks = handles ∧
      (cleanup_memory 8 s').freed_chunks.length =
        [((4 : Nat), (⟨8, 16, 8, 0⟩ : Libc)), (4, ⟨8, 32, 8, 0⟩), (12, ⟨8, 48, 8, 0⟩)].length ∧
      (cleanup_memory 8 s').freed_array = s'.allocated_chunks ∧
      ([((4 : Nat), (⟨8, 16, 8, 0⟩ : Libc)), (4, ⟨8, 32, 8, 0⟩), (12, ⟨8, 48, 8, 0⟩)] ≠ [] →
        (cleanup_memory 8 s').freed_array ≠ NULL) :=
  have h : ∀ r ∈ [((4 : Nat), (⟨8, 16, 8, 0⟩ : Libc)), (4, ⟨8, 32, 8, 0⟩), (12, ⟨8, 48, 8, 0⟩)],
      r.2.alloc_ok := by
    intro r hr
    simp only [List.mem_cons, List.mem_singleton, List.not_mem_nil, or_false] at hr
    rcases hr with rfl | rfl | rfl <;> exact ⟨by decide, by decide, by decide⟩
  ⟨h, cleanup_memory_frees_each_allocation 8 _ h⟩

/-! Part 5: live handles. -/

theorem LiveInv.initial : LiveInv Arena.initial [] := by
  refine ⟨le_refl _, ?_, ?_, ?_⟩
  · intro i j h0 h1; simp only [Arena.initial] at h1; omega
  · intro h _
    constructor
    · intro hh; cases hh
    · rintro ⟨i, h0, h1, _⟩; simp only [Arena.initial] at h1; omega
  · intro hh; cases hh

theorem NoNull.initial_arena : NoNull Arena.initial [] := by
  refine ⟨?_, ?_⟩
  · rintro ⟨i, h0, h1, _⟩; simp only [Arena.initial] at h1; omega
  · intro hh; cases hh

theorem LiveInv.congr {s : Arena} {live live' : List Ptr} (inv : LiveInv s live)
    (h : ∀ q : Ptr, q ≠ NULL → (q ∈ live' ↔ q ∈ live)) (hn : NULL ∈ live' → NULL ∈ live) :
    LiveInv s live' :=
  ⟨inv.count_nonneg, inv.distinct, fun q hq => (h q hq).trans (inv.mem_iff q hq),
    fun h0 => inv.null_tracked (hn h0)⟩

theorem LiveInv.alloc {s : Arena} {live : List Ptr} (inv : LiveInv s live) (bytes : Nat)
    (libc : Libc) (hm : libc.malloc ≠ NULL) (hf : libc.malloc ∉ live)
    (ha : array_available s libc) (hg : libc.growth ≠ NULL) :
    ∃ s', danpa_alloc s bytes libc = Outcome.returned libc.malloc s' ∧
      LiveInv s' (libc.malloc :: live) ∧
      (¬ is_tracked s NULL → ¬ is_tracked s' NULL) := by
  obtain ⟨s', e, hs, hc, _⟩ := danpa_alloc_returned s bytes libc hm ha hg
  have hnt : ¬ is_tracked s libc.malloc := fun h => hf ((inv.mem_iff _ hm).2 h)
  have hold : ∀ i : Int, i < s.chunk_count → s'.slots i = s.slots i := by
    intro i hi; rw [hs, Function.update_noteq (by omega)]
  have hnew : s'.slots s.chunk_count = libc.malloc := by rw [hs]; simp
  refine ⟨s', e, ⟨by have := inv.count_nonneg; omega, ?_, ?_, ?_⟩, ?_⟩
  · intro i j hi0 hi1 hj0 hj1 hij hnn
    rw [hc] at hi1 hj1
    by_cases hi : i = s.chunk_count
    · by_cases hj : j = s.chunk_count
      · omega
      · exfalso
        rw [hi, hnew, hold j (by omega)] at hij
        exact hnt ⟨j, hj0, by omega, hij.symm⟩
    · by_cases hj : j = s.chunk_count
      · exfalso
        rw [hj, hnew, hold i (by omega)] at hij
        exact hnt ⟨i, hi0, by omega, hij⟩
      · rw [hold i (by omega)] at hnn
        rw [hold i (by omega), hold j (by omega)] at hij
        exact inv.distinct i j hi0 (by omega) hj0 (by omega) hij hnn
  · intro h hh
    rw [List.mem_cons, inv.mem_iff h hh]
    constructor
    · rintro (rfl | ⟨i, hi0, hi1, hi2⟩)
      · exact ⟨s.chunk_count, inv.count_nonneg, by omega, hnew⟩
      · exact ⟨i, hi0, by omega, by rw [hold i hi1]; exact hi2⟩
    · rintro ⟨i, hi0, hi1, hi2⟩
      rw [hc] at hi1
      by_cases hi : i = s.chunk_count
      · left; rw [← hi2, hi, hnew]
      · right; exact ⟨i, hi0, by omega, by rw [← hold i (by omega)]; exact hi2⟩
  · intro h0
    rcases List.mem_cons.1 h0 with h0 | h0
    · exact absurd h0.symm hm
    · obtain ⟨i, hi0, hi1, hi2⟩ := inv.null_tracked h0
      exact ⟨i, hi0, by omega, by rw [hold i hi1]; exact hi2⟩
  · rintro hn ⟨i, hi0, hi1, hi2⟩
    rw [hc] at hi1
    by_cases hi : i = s.chunk_count
    · rw [hi, hnew] at hi2; exact hm hi2
    · rw [hold i (by omega)] at hi2
      exact hn ⟨i, hi0, by omega, hi2⟩

theorem LiveInv.realloc {s : Arena} {live : List Ptr} (inv : LiveInv s live) (p : Ptr) (n : Nat)
    (libc : Libc) (hp : p ≠ NULL)
    (hf : libc.realloc = NULL ∨ libc.realloc = p ∨ libc.realloc ∉ live) (h : Ptr) (s' : Arena)
    (e : danpa_realloc s p n libc = Outcome.returned h s') :
    h = libc.realloc ∧
    LiveInv s' (live_after live (Call.realloc p n) h) ∧
    (libc.realloc ≠ NULL → ¬ is_tracked s NULL → ¬ is_tracked s' NULL) := by
  unfold danpa_realloc at e
  rw [if_neg hp] at e
  cases hfc : find_chunk s.slots p s.chunk_count.toNat 0 with
  | none => rw [hfc] at e; cases e
  | some i0 =>
    rw [hfc] at e
    simp only [Function.update_same, Outcome.returned.injEq] at e
    obtain ⟨eh, es⟩ := e
    obtain ⟨h0, h1, h2, _⟩ := find_chunk_some s.slots p _ 0 i0 hfc
    have hlt : i0 < s.chunk_count := by omega
    have hpl : p ∈ live := (inv.mem_iff p hp).2 ⟨i0, h0, hlt, h2⟩
    subst eh
    refine ⟨rfl, ?_, ?_⟩
    · by_cases hrp : libc.realloc = p
      · have hsl : Function.update s.slots i0 libc.realloc = s.slots := by
          rw [hrp, ← h2]; exact Function.update_eq_self i0 s.slots
        rw [hsl] at es
        have es' : s' = s := by rw [← es]
        subst es'
        apply inv.congr
        · intro q _
          simp only [live_after, hrp, if_true, List.mem_cons]
          constructor
          · rintro (rfl | hq)
            · exact hpl
            · exact hq
          · intro hq; exact Or.inr hq
        · simp only [live_after, hrp, if_true, List.mem_cons]
          rintro (h0 | h0)
          · exact absurd h0.symm hp
          · exact h0
      · have hnt : libc.realloc ≠ NULL → ¬ is_tracked s libc.realloc := by
          intro hr ht
          rcases hf with hf | hf | hf
          · exact hr hf
          · exact hrp hf
          · exact hf ((inv.mem_iff _ hr).2 ht)
        subst es
        refine ⟨inv.count_nonneg, ?_, ?_, ?_⟩
        · intro i j hi0 hi1 hj0 hj1 hij hnn
          simp only at hi1 hj1 hij hnn
          by_cases hi : i = i0
          · by_cases hj : j = i0
            · omega
            · exfalso
              rw [hi, Function.update_same] at hnn
              rw [hi, Function.update_same, Function.update_noteq hj] at hij
              exact hnt hnn ⟨j, hj0, hj1, hij.symm⟩
          · by_cases hj : j = i0
            · exfalso
              rw [Function.update_noteq hi] at hnn
              rw [hj, Function.update_same, Function.update_noteq hi] at hij
              rw [hij] at hnn
              exact hnt hnn ⟨i, hi0, hi1, hij⟩
            · rw [Function.update_noteq hi] at hnn
              rw [Function.update_noteq hi, Function.update_noteq hj] at hij
              exact inv.distinct i j hi0 hi1 hj0 hj1 hij hnn
        · intro q hq
          simp only [live_after, hrp, if_false, List.mem_cons, List.mem_filter,
            decide_eq_true_eq]
          constructor
          · rintro (rfl | ⟨hql, hqp⟩)
            · exact ⟨i0, h0, hlt, by simp⟩
            · obtain ⟨i, hi0, hi1, hi2⟩ := (inv.mem_iff q hq).1 hql
              have hi : i ≠ i0 := by
                intro hi; rw [hi, h2] at hi2; exact hqp hi2.symm
              exact ⟨i, hi0, hi1, by simp only; rw [Function.update_noteq hi]; exact hi2⟩
          · rintro ⟨i, hi0, hi1, hi2⟩
            simp only at hi1 hi2
            by_cases hi : i = i0
            · left; rw [hi, Function.update_same] at hi2; exact hi2.symm
            · right
              rw [Function.update_noteq hi] at hi2
              refine ⟨(inv.mem_iff q hq).2 ⟨i, hi0, hi1, hi2⟩, ?_⟩
              intro hqp
              apply hi
              have hne : s.slots i ≠ NULL := by rw [hi2]; exact hq
              exact inv.distinct i i0 hi0 hi1 h0 hlt (by rw [hi2, h2, hqp]) hne
        · simp only [live_after, hrp, if_false, List.mem_cons, List.mem_filter,
            decide_eq_true_eq]
          rintro (hz | ⟨hz, _⟩)
          · exact ⟨i0, h0, hlt, by simp only [Function.update_same]; exact hz.symm⟩
          · obtain ⟨i, hi0, hi1, hi2⟩ := inv.null_tracked hz
            have hi : i ≠ i0 := by
              intro hi; rw [hi, h2] at hi2; exact hp hi2
            exact ⟨i, hi0, hi1, by simp only; rw [Function.update_noteq hi]; exact hi2⟩
    · rintro hr hn ⟨i, hi0, hi1, hi2⟩
      rw [← es] at hi1 hi2
      simp only at hi1 hi2
      by_cases hi : i = i0
      · rw [hi, Function.update_same] at hi2; exact hr hi2
      · rw [Function.update_noteq hi] at hi2
        exact hn ⟨i, hi0, hi1, hi2⟩

theorem expansion_ok_alloc (c : Call) (libc : Libc) (hexp : expansion_ok c libc)
    (hc : ∀ p n, c = Call.realloc p n → p = NULL) :
    libc.first_use ≠ NULL ∧ libc.growth ≠ NULL := by
  cases c with
  | alloc bytes => exact hexp
  | realloc p n => exact hexp (hc p n rfl)

theorem LiveInv.perform {s : Arena} {live : List Ptr} (inv : LiveInv s live) (c : Call)
    (libc : Libc) (hok : libc_ok live c libc) (hexp : expansion_ok c libc) (h : Ptr)
    (s' : Arena) (e : c.perform s libc = Outcome.returned h s') :
    LiveInv s' (live_after live c h) ∧
    (realloc_nonnull c libc → NoNull s live → NoNull s' (live_after live c h)) := by
  cases c with
  | alloc bytes =>
    obtain ⟨hm, hf⟩ := hok
    obtain ⟨s1, e1, inv1, hn1⟩ := inv.alloc bytes libc hm hf (Or.inr hexp.1) hexp.2
    simp only [Call.perform] at e
    rw [e1] at e
    simp only [Outcome.returned.injEq] at e
    obtain ⟨rfl, rfl⟩ := e
    refine ⟨inv1, fun _ nn => ⟨hn1 nn.tracked_nonnull, ?_⟩⟩
    simp only [live_after, List.mem_cons, not_or]
    exact ⟨fun e0 => hm e0.symm, nn.live_nonnull⟩
  | realloc p n =>
    by_cases hp : p = NULL
    · simp only [libc_ok, hp, if_true] at hok
      obtain ⟨hm, hf⟩ := hok
      have hexp' := hexp hp
      obtain ⟨s1, e1, inv1, hn1⟩ := inv.alloc n libc hm hf (Or.inr hexp'.1) hexp'.2
      simp only [Call.perform, danpa_realloc, hp, if_true] at e
      rw [e1] at e
      simp only [Outcome.returned.injEq] at e
      obtain ⟨rfl, rfl⟩ := e
      have hmem : ∀ q : Ptr, q ≠ NULL →
          (q ∈ live_after live (Call.realloc p n) libc.malloc ↔ q ∈ libc.malloc :: live) := by
        intro q hq
        simp only [live_after, hp, hm, if_false, List.mem_cons, List.mem_filter,
          decide_eq_true_eq]
        constructor
        · rintro (hq1 | ⟨hq1, _⟩)
          · exact Or.inl hq1
          · exact Or.inr hq1
        · rintro (hq1 | hq1)
          · exact Or.inl hq1
          · exact Or.inr ⟨hq1, hq⟩
      have hnl : NULL ∉ live_after live (Call.realloc p n) libc.malloc := by
        simp only [live_after, hp, hm, if_false, List.mem_cons, List.mem_filter,
          decide_eq_true_eq, not_or, not_and, not_not]
        exact ⟨fun e0 => hm e0.symm, fun _ => trivial⟩
      exact ⟨inv1.congr hmem (fun h0 => absurd h0 hnl),
        fun _ nn => ⟨hn1 nn.tracked_nonnull, hnl⟩⟩
    · simp only [libc_ok, hp, if_false] at hok
      obtain ⟨hh, inv1, hn1⟩ := inv.realloc p n libc hp hok h s' e
      refine ⟨inv1, fun hnn nn => ⟨hn1 (hnn hp) nn.tracked_nonnull, ?_⟩⟩
      have hr : libc.realloc ≠ NULL := hnn hp
      rw [hh]
      simp only [live_after, List.mem_cons, not_or]
      refine ⟨fun e0 => hr e0.symm, ?_⟩
      split_ifs
      · exact nn.live_nonnull
      · intro hmem
        exact nn.live_nonnull (List.mem_of_mem_filter hmem)

theorem run_live_inv (calls : List (Call × Libc)) :
    ∀ (s : Arena) (live : List Ptr) (s' : Arena) (live' : List Ptr),
      LiveInv s live → (∀ cl ∈ calls, expansion_ok cl.1 cl.2) →
      run_live s live calls = some (s', live') →
      LiveInv s' live' ∧
      ((∀ cl ∈ calls, realloc_nonnull cl.1 cl.2) → NoNull s live → NoNull s' live') := by
  induction calls with
  | nil =>
    intro s live s' live' inv _ e
    simp only [run_live, Option.some.injEq, Prod.mk.injEq] at e
    obtain ⟨rfl, rfl⟩ := e
    exact ⟨inv, fun _ nn => nn⟩
  | cons cl rest ih =>
    intro s live s' live' inv hexp e
    obtain ⟨c, libc⟩ := cl
    simp only [run_live] at e
    by_cases hok : libc_ok live c libc
    · rw [if_pos hok] at e
      cases hc : c.perform s libc with
      | aborted l t => rw [hc] at e; cases e
      | crashed t => rw [hc] at e; cases e
      | returned h s1 =>
        rw [hc] at e
        simp only at e
        obtain ⟨inv1, hn1⟩ := inv.perform c libc hok (hexp (c, libc) (List.mem_cons_self _ _))
          h s1 hc
        obtain ⟨inv2, hn2⟩ := ih s1 _ s' live' inv1
          (fun q hq => hexp q (List.mem_cons_of_mem _ hq)) e
        refine ⟨inv2, fun hnn nn => hn2 (fun q hq => hnn q (List.mem_cons_of_mem _ hq)) ?_⟩
        exact hn1 (hnn (c, libc) (List.mem_cons_self _ _)) nn
    · rw [if_neg hok] at e; cases e

theorem danpa_alloc_bounds (s : Arena) (bytes : Nat) (libc : Libc) (h : Ptr) (s' : Arena)
    (hs : s = Arena.initial ∨ Bounds s) (hf : libc.first_use ≠ NULL) (hg : libc.growth ≠ NULL)
    (e : danpa_alloc s bytes libc = Outcome.returned h s') :
    Bounds s' ∧ s.chunk_capacity ≤ s'.chunk_capacity := by
  unfold danpa_alloc at e
  by_cases hm : libc.malloc = NULL
  · simp only [hm, if_true] at e; cases e
  · rcases hs with rfl | hb
    · simp only [hm, hf, Arena.initial, expand_array, INITIAL_MAX_CHUNKS, if_true, if_false,
        Outcome.returned.injEq] at e
      obtain ⟨_, e⟩ := e
      subst e
      refine ⟨⟨?_, ?_, ?_, ?_⟩, ?_⟩
      · simpa using hf
      · simp
      · simp
      · simp [INITIAL_MAX_CHUNKS]
      · simp [Arena.initial]
    · obtain ⟨h1, h2, h3, h4⟩ := hb
      have h4' : (4096 : Int) ≤ s.chunk_capacity := h4
      have htd : Int.tdiv s.chunk_capacity 2 = s.chunk_capacity / 2 :=
        Int.tdiv_eq_ediv (by omega) (by omega)
      simp only [hm, h1, if_false, Outcome.returned.injEq] at e
      obtain ⟨_, e⟩ := e
      subst e
      simp only [expand_array, htd]
      by_cases hx : s.chunk_capacity ≤ s.chunk_count + 1
      · simp only [ge_iff_le, hx, if_true]
        refine ⟨⟨hg, ?_, ?_, ?_⟩, ?_⟩
        · show 0 ≤ s.chunk_count + 1
          omega
        · show s.chunk_count + 1 < s.chunk_capacity + s.chunk_capacity / 2
          omega
        · show (4096 : Int) ≤ s.chunk_capacity + s.chunk_capacity / 2
          omega
        · show s.chunk_capacity ≤ s.chunk_capacity + s.chunk_capacity / 2
          omega
      · simp only [ge_iff_le, hx, if_false]
        refine ⟨⟨h1, ?_, ?_, h4⟩, le_refl _⟩
        · show 0 ≤ s.chunk_count + 1
          omega
        · show s.chunk_count + 1 < s.chunk_capacity
          omega

theorem perform_bounds (c : Call) (s : Arena) (libc : Libc) (h : Ptr) (s' : Arena)
    (hs : s = Arena.initial ∨ Bounds s) (hok : expansion_ok c libc)
    (e : c.perform s libc = Outcome.returned h s') :
    Bounds s' ∧ s.chunk_capacity ≤ s'.chunk_capacity := by
  cases c with
  | alloc bytes => exact danpa_alloc_bounds s bytes libc h s' hs hok.1 hok.2 e
  | realloc p n =>
    by_cases hp : p = NULL
    · simp only [Call.perform, danpa_realloc, hp, if_true] at e
      have hok' := hok hp
      exact danpa_alloc_bounds s n libc h s' hs hok'.1 hok'.2 e
    · simp only [Call.perform, danpa_realloc, hp, if_false] at e
      cases hfc : find_chunk s.slots p s.chunk_count.toNat 0 with
      | none => rw [hfc] at e; cases e
      | some i =>
        rw [hfc] at e
        simp only [Outcome.returned.injEq] at e
        obtain ⟨_, e⟩ := e
        rcases hs with rfl | hb
        · simp [Arena.initial, find_chunk] at hfc
        · subst e
          exact ⟨⟨hb.array, hb.count_nonneg, hb.count_lt, hb.capacity_ge⟩, le_refl _⟩

theorem run_live_bounds (calls : List (Call × Libc)) :
    ∀ (s : Arena) (live : List Ptr) (s' : Arena) (live' : List Ptr),
      (s = Arena.initial ∨ Bounds s) → (∀ cl ∈ calls, expansion_ok cl.1 cl.2) →
      run_live s live calls = some (s', live') → (s' = Arena.initial ∨ Bounds s') := by
  induction calls with
  | nil =>
    intro s live s' live' hs _ e
    simp only [run_live, Option.some.injEq, Prod.mk.injEq] at e
    rw [← e.1]
    exact hs
  | cons cl rest ih =>
    intro s live s' live' hs hexp e
    obtain ⟨c, libc⟩ := cl
    simp only [run_live] at e
    by_cases hok : libc_ok live c libc
    · rw [if_pos hok] at e
      cases hc : c.perform s libc with
      | aborted l t => rw [hc] at e; cases e
      | crashed t => rw [hc] at e; cases e
      | returned h s1 =>
        rw [hc] at e
        simp only at e
        obtain ⟨hb, _⟩ := perform_bounds c s libc h s1 hs
          (hexp (c, libc) (List.mem_cons_self _ _)) hc
        exact ih s1 _ s' live' (Or.inr hb) (fun q hq => hexp q (List.mem_cons_of_mem _ hq)) e
    · rw [if_neg hok] at e; cases e

theorem danpa_alloc_fits (s : Arena) (bytes : Nat) (libc : Libc) (h : Ptr) (s' : Arena)
    (hi : fits_int s.chunk_capacity) (hno : no_overflow s)
    (e : danpa_alloc s bytes libc = Outcome.returned h s') :
    fits_int s'.chunk_count ∧ fits_int s'.chunk_capacity := by
  obtain ⟨hno1, hno2⟩ := hno
  have hfu : fits_int (first_use_capacity s) := by
    unfold first_use_capacity
    split_ifs
    · decide
    · exact hi
  unfold first_use_capacity at hno2 hfu
  unfold danpa_alloc at e
  by_cases hm : libc.malloc = NULL
  · simp only [hm, if_true] at e; cases e
  · simp only [hm, if_false] at e
    by_cases hA : s.allocated_chunks = NULL
    · simp only [hA, if_true, expand_array] at e hno2 hfu
      split_ifs at e with h1 h2 <;> cases e <;>
        first | exact ⟨hno1, hno2 h2⟩ | exact ⟨hno1, hfu⟩
    · simp only [hA, if_false, expand_array] at e hno2 hfu
      split_ifs at e with h2 <;> cases e <;>
        first | exact ⟨hno1, hno2 h2⟩ | exact ⟨hno1, hfu⟩

theorem perform_fits (c : Call) (s : Arena) (libc : Libc) (h : Ptr) (s' : Arena)
    (hi : fits_int s.chunk_count ∧ fits_int s.chunk_capacity) (hno : c.fits s)
    (e : c.perform s libc = Outcome.returned h s') :
    fits_int s'.chunk_count ∧ fits_int s'.chunk_capacity := by
  cases c with
  | alloc bytes => exact danpa_alloc_fits s bytes libc h s' hi.2 hno e
  | realloc p n =>
    by_cases hp : p = NULL
    · simp only [Call.perform, danpa_realloc, hp, if_true] at e
      exact danpa_alloc_fits s n libc h s' hi.2 (hno hp) e
    · simp only [Call.perform, danpa_realloc, hp, if_false] at e
      cases hfc : find_chunk s.slots p s.chunk_count.toNat 0 with
      | none => rw [hfc] at e; cases e
      | some i =>
        rw [hfc] at e
        simp only [Outcome.returned.injEq] at e
        obtain ⟨_, e⟩ := e
        subst e
        exact hi

theorem run_live_fits (calls : List (Call × Libc)) :
    ∀ (s : Arena) (live : List Ptr) (s' : Arena) (live' : List Ptr),
      (fits_int s.chunk_count ∧ fits_int s.chunk_capacity) → run_fits s calls →
      run_live s live calls = some (s', live') →
      fits_int s'.chunk_count ∧ fits_int s'.chunk_capacity := by
  induction calls with
  | nil =>
    intro s live s' live' hi _ e
    simp only [run_live, Option.some.injEq, Prod.mk.injEq] at e
    rw [← e.1]
    exact hi
  | cons cl rest ih =>
    intro s live s' live' hi hfit e
    obtain ⟨c, libc⟩ := cl
    obtain ⟨hf1, hf2⟩ := hfit
    simp only [run_live] at e
    by_cases hok : libc_ok live c libc
    · rw [if_pos hok] at e
      cases hc : c.perform s libc with
      | aborted l t => rw [hc] at e; cases e
      | crashed t => rw [hc] at e; cases e
      | returned h s1 =>
        rw [hc] at e hf2
        simp only at e
        exact ih s1 _ s' live' (perform_fits c s libc h s1 hi hf1 hc) hf2 e
    · rw [if_neg hok] at e; cases e

theorem cleanup_memory_of_bounds (ptr_size : Int) (s : Arena)
    (hs : s = Arena.initial ∨ Bounds s) :
    (cleanup_memory ptr_size s).freed_chunks = tracked s ∧
    (cleanup_memory ptr_size s).crashed = false := by
  have h : s.allocated_chunks ≠ NULL ∨ s.chunk_count ≤ 0 := by
    rcases hs with rfl | hb
    · right; exact le_refl _
    · left; exact hb.array
  obtain ⟨h1, _, h3⟩ := cleanup_memory_completes ptr_size s h
  exact ⟨h1, h3⟩

/-! Part 6: the cost of growing the registry. -/

theorem alloc_counters (s : Arena) (bytes : Nat) (libc : Libc) (hok : libc.alloc_ok)
    (count cap : Nat) (harr : s.allocated_chunks ≠ NULL) (hc : s.chunk_count = count)
    (hk : s.chunk_capacity = cap) :
    (danpa_alloc s bytes libc).arena.allocated_chunks ≠ NULL ∧
    (danpa_alloc s bytes libc).arena.chunk_count = ((count + 1 : Nat) : Int) ∧
    (danpa_alloc s bytes libc).arena.chunk_capacity =
      ((if cap ≤ count + 1 then cap + cap / 2 else cap : Nat) : Int) ∧
    copied_slots s libc = ((if cap ≤ count + 1 then cap else 0 : Nat) : Int) := by
  obtain ⟨_, hm, hg⟩ := hok
  have htd : Int.tdiv (cap : Int) 2 = ((cap / 2 : Nat) : Int) := by
    rw [Int.tdiv_eq_ediv (by omega) (by omega)]; norm_cast
  unfold danpa_alloc copied_slots
  simp only [harr, hm, if_false, Outcome.arena, hc, hk, expand_array]
  by_cases h : cap ≤ count + 1
  · have h' : (cap : Int) ≤ (count : Int) + 1 := by omega
    simp only [ge_iff_le, h', h, if_true, htd]
    refine ⟨hg, by push_cast; ring, by push_cast; ring, ?_⟩
    trivial
  · have h' : ¬ (cap : Int) ≤ (count : Int) + 1 := by omega
    simp only [ge_iff_le, h', h, if_false]
    refine ⟨harr, by push_cast; ring, ?_, ?_⟩ <;> simp

theorem copied_total_eq_sim (reqs : List (Nat × Libc)) (hok : ∀ r ∈ reqs, r.2.alloc_ok) :
    ∀ (s : Arena) (count cap : Nat), s.allocated_chunks ≠ NULL → s.chunk_count = count →
      s.chunk_capacity = cap → copied_total s reqs = (sim_cost count cap reqs.length : Nat) := by
  induction reqs with
  | nil => intro s count cap _ _ _; simp [copied_total, sim_cost]
  | cons r rest ih =>
    intro s count cap harr hc hk
    obtain ⟨h1, h2, h3, h4⟩ :=
      alloc_counters s r.1 r.2 (hok r (List.mem_cons_self _ _)) count cap harr hc hk
    have ih' := ih (fun q hq => hok q (List.mem_cons_of_mem _ hq)) _ _ _ h1 h2 h3
    simp only [copied_total, List.length_cons, sim_cost, h4, ih']
    by_cases h : cap ≤ count + 1
    · simp only [h, if_true]; push_cast; ring
    · simp only [h, if_false]; simp

theorem copied_total_initial (reqs : List (Nat × Libc)) (hok : ∀ r ∈ reqs, r.2.alloc_ok) :
    copied_total Arena.initial reqs = (sim_cost 0 4096 reqs.length : Nat) := by
  cases reqs with
  | nil => simp [copied_total, sim_cost]
  | cons r rest =>
    obtain ⟨hf, hm, hg⟩ := hok r (List.mem_cons_self _ _)
    have e0 : copied_slots Arena.initial r.2 = 0 := by
      simp [copied_slots, Arena.initial, expand_array, hm, INITIAL_MAX_CHUNKS]
    have harr : (danpa_alloc Arena.initial r.1 r.2).arena.allocated_chunks ≠ NULL := by
      simp [danpa_alloc, Arena.initial, expand_array, hm, hf, INITIAL_MAX_CHUNKS, Outcome.arena]
    have hc : (danpa_alloc Arena.initial r.1 r.2).arena.chunk_count = ((1 : Nat) : Int) := by
      simp [danpa_alloc, Arena.initial, expand_array, hm, hf, INITIAL_MAX_CHUNKS, Outcome.arena]
    have hk : (danpa_alloc Arena.initial r.1 r.2).arena.chunk_capacity = ((4096 : Nat) : Int) := by
      simp [danpa_alloc, Arena.initial, expand_array, hm, hf, INITIAL_MAX_CHUNKS, Outcome.arena]
    have h := copied_total_eq_sim rest (fun q hq => hok q (List.mem_cons_of_mem _ hq)) _ 1 4096
      harr hc hk
    simp only [copied_total, e0, h, List.length_cons, sim_cost]
    simp

theorem sim_cost_idle (m : Nat) : ∀ count cap : Nat, count + m < cap → sim_cost count cap m = 0 := by
  induction m with
  | zero => intro count cap _; rfl
  | succ m ih =>
    intro count cap h
    have h1 : ¬ cap ≤ count + 1 := by omega
    simp only [sim_cost, h1, if_false]
    exact ih (count + 1) cap (by omega)

theorem sim_cost_block (d : Nat) : ∀ count cap m : Nat, count + d + 1 = cap →
    sim_cost count cap (d + 1 + m) = cap + sim_cost cap (cap + cap / 2) m := by
  induction d with
  | zero =>
    intro count cap m h
    have h1 : cap ≤ count + 1 := by omega
    have e : 0 + 1 + m = m + 1 := by omega
    have e2 : count + 1 = cap := by omega
    rw [e]
    simp only [sim_cost, h1, if_true, e2]
    simp
  | succ d ih =>
    intro count cap m h
    have h1 : ¬ cap ≤ count + 1 := by omega
    have e : d + 1 + 1 + m = (d + 1 + m) + 1 := by omega
    rw [e]
    simp only [sim_cost, h1, if_false]
    exact ih (count + 1) cap m (by omega)

theorem growth_sequence_ge (k : Nat) : 4096 ≤ (growth_sequence k).1 := by
  induction k with
  | zero => simp [growth_sequence]
  | succ k ih => simp only [growth_sequence]; omega

theorem growth_sequence_lt (k : Nat) : (growth_sequence k).1 < (growth_sequence (k + 1)).1 := by
  have := growth_sequence_ge k
  simp only [growth_sequence]; omega

theorem sim_cost_growth (k : Nat) : ∀ m : Nat,
    sim_cost 0 4096 ((growth_sequence k).1 + m) =
      (growth_sequence (k + 1)).2 +
        sim_cost (growth_sequence k).1 (growth_sequence (k + 1)).1 m := by
  induction k with
  | zero =>
    intro m
    have h := sim_cost_block 4095 0 4096 m (by norm_num)
    simpa [growth_sequence] using h
  | succ k ih =>
    intro m
    have hlt := growth_sequence_lt k
    obtain ⟨d, hd⟩ : ∃ d, (growth_sequence k).1 + d + 1 = (growth_sequence (k + 1)).1 :=
      ⟨(growth_sequence (k + 1)).1 - (growth_sequence k).1 - 1, by omega⟩
    have e : (growth_sequence (k + 1)).1 + m = (growth_sequence k).1 + (d + 1 + m) := by omega
    rw [e, ih (d + 1 + m), sim_cost_block d _ _ m hd]
    have e3 : (growth_sequence (k + 1 + 1)).2 =
        (growth_sequence (k + 1)).2 + (growth_sequence (k + 1)).1 := rfl
    have e4 : (growth_sequence (k + 1 + 1)).1 =
        (growth_sequence (k + 1)).1 + (growth_sequence (k + 1)).1 / 2 := rfl
    rw [e3, e4]; ring

theorem within_bound_spec (j : Nat) : ∀ k : Nat,
    within_bound j (growth_sequence k).1 (growth_sequence k).2 = true →
    ∀ i, i < j → (growth_sequence (k + i + 1)).2 ≤ 3 * (growth_sequence (k + i)).1 := by
  induction j with
  | zero => intro k _ i hi; omega
  | succ j ih =>
    intro k h i hi
    simp only [within_bound, Bool.and_eq_true, decide_eq_true_eq] at h
    obtain ⟨h1, h2⟩ := h
    rcases Nat.eq_zero_or_pos i with rfl | hpos
    · simpa [growth_sequence] using h1
    · have := ih (k + 1) h2 (i - 1) (by omega)
      have e : k + 1 + (i - 1) = k + i := by omega
      rw [e] at this
      exact this

theorem growth_sequence_bracket (n : Nat) : ∀ J : Nat, 4096 ≤ n → n < (growth_sequence J).1 →
    ∃ j, j < J ∧ (growth_sequence j).1 ≤ n ∧ n < (growth_sequence (j + 1)).1 := by
  intro J
  induction J with
  | zero => intro h1 h2; simp [growth_sequence] at h2; omega
  | succ J ih =>
    intro h1 h2
    by_cases h : n < (growth_sequence J).1
    · obtain ⟨j, hj, h3, h4⟩ := ih h1 h
      exact ⟨j, by omega, h3, h4⟩
    · exact ⟨J, by omega, by omega, h2⟩

theorem within_bound_32 : within_bound 32 4096 0 = true := by decide!

theorem growth_sequence_32 : (growth_sequence 32).1 = 1767175008 := by decide!

theorem growth_sequence_mono (k j : Nat) (h : k ≤ j) :
    (growth_sequence k).1 ≤ (growth_sequence j).1 := by
  induction j with
  | zero =>
    have e : k = 0 := by omega
    subst e
    exact le_refl _
  | succ j ih =>
    rcases Nat.eq_or_lt_of_le h with e | hlt
    · subst e; exact le_refl _
    · have h1 := ih (by omega)
      have h2 := growth_sequence_lt j
      omega

theorem sim_cost_le (n : Nat) (hn : n < (growth_sequence 32).1) : sim_cost 0 4096 n ≤ 3 * n := by
  by_cases h : n < 4096
  · rw [sim_cost_idle n 0 4096 (by omega)]; omega
  · obtain ⟨j, hj, h1, h2⟩ := growth_sequence_bracket n 32 (by omega) hn
    obtain ⟨m, hm⟩ : ∃ m, n = (growth_sequence j).1 + m := ⟨n - (growth_sequence j).1, by omega⟩
    have hb := within_bound_spec 32 0 within_bound_32 j hj
    rw [Nat.zero_add] at hb
    rw [hm, sim_cost_growth j m, sim_cost_idle m _ _ (by omega)]
    omega

theorem fresh_requests_length (n : Nat) : (fresh_requests n).length = n := by
  simp [fresh_requests]

theorem fresh_requests_ok (n : Nat) : ∀ r ∈ fresh_requests n, r.2.alloc_ok := by
  intro r hr
  simp only [fresh_requests, List.mem_map, List.mem_range] at hr
  obtain ⟨i, _, rfl⟩ := hr
  simp [Libc.alloc_ok, NULL]

theorem run_fits_alloc_cons (s : Arena) (r : Nat × Libc) (rest : List (Nat × Libc)) :
    run_fits s (alloc_calls (r :: rest)) ↔
      no_overflow s ∧ run_fits (danpa_alloc s r.1 r.2).arena (alloc_calls rest) := Iff.rfl

theorem run_fits_iff_from (reqs : List (Nat × Libc)) (hok : ∀ r ∈ reqs, r.2.alloc_ok) :
    ∀ (s : Arena) (count k : Nat), s.allocated_chunks ≠ NULL → s.chunk_count = count →
      s.chunk_capacity = ((growth_sequence k).1 : Nat) → k ≤ 32 →
      count < (growth_sequence k).1 →
      (run_fits s (alloc_calls reqs) ↔ count + reqs.length ≤ 1767175007) := by
  induction reqs with
  | nil =>
    intro s count k _ _ _ hk hlt
    have hmono := growth_sequence_mono k 32 hk
    rw [growth_sequence_32] at hmono
    simp only [alloc_calls, List.map_nil, run_fits, List.length_nil, true_iff]
    omega
  | cons r rest ih =>
    intro s count k harr hc hcap hk hlt
    have hmono := growth_sequence_mono k 32 hk
    rw [growth_sequence_32] at hmono
    have hge := growth_sequence_ge k
    obtain ⟨h1, h2, h3, _⟩ := alloc_counters s r.1 r.2 (hok r (List.mem_cons_self _ _)) count
      (growth_sequence k).1 harr hc hcap
    have hok' : ∀ q ∈ rest, q.2.alloc_ok := fun q hq => hok q (List.mem_cons_of_mem _ hq)
    have hfu : first_use_capacity s = ((growth_sequence k).1 : Nat) := by
      simp only [first_use_capacity, harr, if_false, hcap]
    have htd : Int.tdiv (((growth_sequence k).1 : Nat) : Int) 2 =
        (((growth_sequence k).1 / 2 : Nat) : Int) := by
      rw [Int.tdiv_eq_ediv (by omega) (by omega)]; norm_cast
    rw [run_fits_alloc_cons]
    simp only [no_overflow, fits_int, INT_MIN, INT_MAX, hfu, hc, htd, List.length_cons]
    by_cases hx : (growth_sequence k).1 ≤ count + 1
    · rw [if_pos hx] at h3
      by_cases hk32 : k = 32
      · subst hk32
        rw [growth_sequence_32] at hx hlt ⊢
        constructor
        · rintro ⟨⟨_, hov⟩, _⟩
          have := hov (by omega)
          omega
        · intro h; omega
      · have hk1 : k + 1 ≤ 32 := by omega
        have hm1 := growth_sequence_mono (k + 1) 32 hk1
        rw [growth_sequence_32] at hm1
        have e : (growth_sequence (k + 1)).1 =
            (growth_sequence k).1 + (growth_sequence k).1 / 2 := rfl
        have ih' := ih hok' _ (count + 1) (k + 1) h1 h2 (by rw [h3, e]) hk1 (by omega)
        rw [ih']
        constructor
        · rintro ⟨_, h⟩; omega
        · intro h
          refine ⟨⟨⟨by omega, by omega⟩, fun _ => ⟨by omega, by omega⟩⟩, by omega⟩
    · rw [if_neg hx] at h3
      have ih' := ih hok' _ (count + 1) k h1 h2 h3 hk (by omega)
      rw [ih']
      constructor
      · rintro ⟨_, h⟩; omega
      · intro h
        refine ⟨⟨⟨by omega, by omega⟩, fun h0 => absurd h0 (by omega)⟩, by omega⟩

theorem run_fits_iff (reqs : List (Nat × Libc)) (hok : ∀ r ∈ reqs, r.2.alloc_ok) :
    run_fits Arena.initial (alloc_calls reqs) ↔ reqs.length ≤ 1767175007 := by
  cases reqs with
  | nil => simp [alloc_calls, run_fits]
  | cons r rest =>
    obtain ⟨hf, hm, hg⟩ := hok r (List.mem_cons_self _ _)
    have harr : (danpa_alloc Arena.initial r.1 r.2).arena.allocated_chunks ≠ NULL := by
      simp [danpa_alloc, Arena.initial, expand_array, hm, hf, INITIAL_MAX_CHUNKS, Outcome.arena]
    have hc : (danpa_alloc Arena.initial r.1 r.2).arena.chunk_count = ((1 : Nat) : Int) := by
      simp [danpa_alloc, Arena.initial, expand_array, hm, hf, INITIAL_MAX_CHUNKS, Outcome.arena]
    have hk : (danpa_alloc Arena.initial r.1 r.2).arena.chunk_capacity =
        (((growth_sequence 0).1 : Nat) : Int) := by
      simp [danpa_alloc, Arena.initial, expand_array, hm, hf, INITIAL_MAX_CHUNKS, Outcome.arena,
        growth_sequence]
    have h := run_fits_iff_from rest (fun q hq => hok q (List.mem_cons_of_mem _ hq)) _ 1 0
      harr hc hk (by omega) (by simp [growth_sequence])
    have h0 : no_overflow Arena.initial := ⟨by decide, fun _ => by decide⟩
    rw [run_fits_alloc_cons]
    simp only [h, h0, true_and, List.length_cons]
    omega

theorem run_fits_fresh_requests (n : Nat) (hn : n ≤ 1767175007) :
    run_fits Arena.initial (alloc_calls (fresh_requests n)) :=
  (run_fits_iff (fresh_requests n) (fresh_requests_ok n)).2
    (le_of_eq_of_le (fresh_requests_length n) hn)

/-! Part 7: the claims about sequences, growth and classification. -/

/-- C7 fails when a `realloc` returned null: after an allocation (chunk 16), a
`danpa_realloc(16, 0)` for which `realloc` returns null, and a `danpa_realloc(NULL, 8)` that
returns chunk 32, all three calls having returned, the only live handle is 32 while the tracked
entries are null and 32: the null entry is tracked and is not a live handle. -/
theorem null_entry_tracked_not_live :
    ∃ (s : Arena) (live : List Ptr),
      (∀ cl ∈ stale_null_calls, expansion_ok cl.1 cl.2) ∧
      run_fits Arena.initial stale_null_calls ∧
      run Arena.initial stale_null_calls = some ([16, NULL, 32], s) ∧
      run_live Arena.initial [] stale_null_calls = some (s, live) ∧
      live = [32] ∧
      tracked s = [NULL, 32] ∧
      NULL ∈ tracked s ∧ NULL ∉ live ∧
      ¬ (∀ h : Ptr, h ∈ live ↔ h ∈ tracked s) :=
  ⟨_, _, by decide, by decide, rfl, rfl, rfl, by decide, by decide, by decide,
    fun h => absurd ((h NULL).2 (by decide)) (by decide)⟩

/-- C7, as the code has it. Take a state reached from the initial arena by `danpa_alloc` and
`danpa_realloc` calls that all returned, where the C library kept its contract (`malloc` gave a
non-null block that is none of the live ones; `realloc` of a chunk gave that chunk, a block that
is none of the live ones, or null), the reallocs of the tracking array succeeded and no `int`
computation overflowed. Then every live handle (returned by a call and not since passed to a
`danpa_realloc` that returned another handle) is one of the entries
`allocated_chunks[0..chunk_count-1]`; every entry that is not null is a live handle;
`cleanup_memory` runs to its end and frees exactly the entries, so every live handle;
`chunk_count` and `chunk_capacity` are values of type `int`. If moreover no `realloc` of a chunk
returned null, no entry is null and the live handles are exactly the entries. -/
theorem live_handles_are_the_tracked_chunks (ptr_size : Int) (calls : List (Call × Libc))
    (s : Arena) (live : List Ptr)
    (hexp : ∀ cl ∈ calls, expansion_ok cl.1 cl.2)
    (hfit : run_fits Arena.initial calls)
    (hrun : run_live Arena.initial [] calls = some (s, live)) :
    (∀ h : Ptr, h ∈ live → h ∈ tracked s) ∧
    (∀ h : Ptr, h ≠ NULL → h ∈ tracked s → h ∈ live) ∧
    (cleanup_memory ptr_size s).crashed = false ∧
    (cleanup_memory ptr_size s).freed_chunks = tracked s ∧
    (∀ h : Ptr, h ∈ live → h ∈ (cleanup_memory ptr_size s).freed_chunks) ∧
    (∀ h : Ptr, h ≠ NULL → h ∈ (cleanup_memory ptr_size s).freed_chunks → h ∈ live) ∧
    (fits_int s.chunk_count ∧ fits_int s.chunk_capacity) ∧
    ((∀ cl ∈ calls, realloc_nonnull cl.1 cl.2) →
      NULL ∉ tracked s ∧ ∀ h : Ptr, h ∈ live ↔ h ∈ tracked s) := by
  obtain ⟨inv, hnn⟩ := run_live_inv calls Arena.initial [] s live LiveInv.initial hexp hrun
  have hint := run_live_fits calls Arena.initial [] s live ⟨by decide, by decide⟩ hfit hrun
  have hb := run_live_bounds calls Arena.initial [] s live (Or.inl rfl) hexp hrun
  obtain ⟨hfreed, hcr⟩ := cleanup_memory_of_bounds ptr_size s hb
  have h1 : ∀ h : Ptr, h ∈ live → h ∈ tracked s := by
    intro h hh
    rw [mem_tracked_iff]
    by_cases h0 : h = NULL
    · subst h0; exact inv.null_tracked hh
    · exact (inv.mem_iff h h0).1 hh
  have h2 : ∀ h : Ptr, h ≠ NULL → h ∈ tracked s → h ∈ live := by
    intro h h0 hh
    exact (inv.mem_iff h h0).2 ((mem_tracked_iff s h).1 hh)
  refine ⟨h1, h2, hcr, hfreed, ?_, ?_, hint, ?_⟩
  · intro h hh; rw [hfreed]; exact h1 h hh
  · intro h h0 hh; rw [hfreed] at hh; exact h2 h h0 hh
  · intro hr
    have nn := hnn hr NoNull.initial_arena
    have hz : NULL ∉ tracked s := fun hm => nn.tracked_nonnull ((mem_tracked_iff s NULL).1 hm)
    refine ⟨hz, fun h => ⟨h1 h, fun hh => ?_⟩⟩
    by_cases h0 : h = NULL
    · subst h0; exact absurd hh hz
    · exact h2 h h0 hh

/-- Witness for `live_handles_are_the_tracked_chunks`: the six calls of `sample_calls`, after
which the registry holds 48, 32, 16 and 64. -/
theorem live_handles_are_the_tracked_chunks_witness :
    ∃ (s : Arena) (live : List Ptr),
      (∀ cl ∈ sample_calls, expansion_ok cl.1 cl.2) ∧
      run_fits Arena.initial sample_calls ∧
      run_live Arena.initial [] sample_calls = some (s, live) ∧
      tracked s = [48, 32, 16, 64] ∧
      ((∀ h : Ptr, h ∈ live → h ∈ tracked s) ∧
       (∀ h : Ptr, h ≠ NULL → h ∈ tracked s → h ∈ live) ∧
       (cleanup_memory 8 s).crashed = false ∧
       (cleanup_memory 8 s).freed_chunks = tracked s ∧
       (∀ h : Ptr, h ∈ live → h ∈ (cleanup_memory 8 s).freed_chunks) ∧
       (∀ h : Ptr, h ≠ NULL → h ∈ (cleanup_memory 8 s).freed_chunks → h ∈ live) ∧
       (fits_int s.chunk_count ∧ fits_int s.chunk_capacity) ∧
       ((∀ cl ∈ sample_calls, realloc_nonnull cl.1 cl.2) →
         NULL ∉ tracked s ∧ ∀ h : Ptr, h ∈ live ↔ h ∈ tracked s)) :=
  ⟨_, _, by decide, by decide, rfl, by decide,
    live_handles_are_the_tracked_chunks 8 sample_calls _ _ (by decide) (by decide) rfl⟩

/-- C8 fails for the null handle: on an arena tracking 4095 chunks in 4096 slots,
`danpa_realloc(NULL, 8)` returns a new chunk and changes `chunk_capacity` from 4096 to 6144. -/
theorem danpa_realloc_null_changes_capacity :
    almost_full.chunk_capacity = 4096 ∧
    (danpa_realloc almost_full NULL 8 ⟨8, 65536, 24, 0⟩).handle = some 65536 ∧
    (danpa_realloc almost_full NULL 8 ⟨8, 65536, 24, 0⟩).arena.chunk_capacity = 6144 := by
  refine ⟨by decide, by decide, by decide⟩

/-- C8, as the code has it. Take a `danpa_alloc` call that has a tracking array to store into
(the arena has one, or the first-use `realloc` succeeds) and whose `int` computations, those of
an insertion, do not overflow (`no_overflow`). With `old` the capacity the call has once past the first-use
initialisation (0x1000 at first use, else `chunk_capacity`, assumed at least 0x1000): the call
leaves a capacity other than `old` exactly when it inserts (`malloc` succeeded) and the
insertion crosses capacity (`old <= chunk_count + 1`); the new capacity then is
`old + floor(old/2)`, a value of type `int`; in every other call it is `old`. `danpa_realloc` on
a non-null handle never changes `chunk_capacity`. -/
theorem growth_policy (s : Arena) (bytes : Nat) (libc : Libc) (p : Ptr) (n : Nat)
    (hcap : s.allocated_chunks ≠ NULL → INITIAL_MAX_CHUNKS ≤ s.chunk_capacity)
    (ha : array_available s libc) (hint : libc.malloc ≠ NULL → no_overflow s)
    (hp : p ≠ NULL) :
    ((danpa_alloc s bytes libc).arena.chunk_capacity ≠ first_use_capacity s ↔
      (libc.malloc ≠ NULL ∧ first_use_capacity s ≤ s.chunk_count + 1)) ∧
    (libc.malloc ≠ NULL → first_use_capacity s ≤ s.chunk_count + 1 →
      (danpa_alloc s bytes libc).arena.chunk_capacity =
        first_use_capacity s + first_use_capacity s / 2 ∧
      fits_int (danpa_alloc s bytes libc).arena.chunk_capacity) ∧
    (¬ (libc.malloc ≠ NULL ∧ first_use_capacity s ≤ s.chunk_count + 1) →
      (danpa_alloc s bytes libc).arena.chunk_capacity = first_use_capacity s) ∧
    (danpa_realloc s p n libc).arena.chunk_capacity = s.chunk_capacity := by
  have hold : INITIAL_MAX_CHUNKS ≤ first_use_capacity s := by
    unfold first_use_capacity
    split_ifs with h
    · exact le_refl _
    · exact hcap h
  have h4096 : (4096 : Int) ≤ first_use_capacity s := hold
  have htd : Int.tdiv (first_use_capacity s) 2 = first_use_capacity s / 2 :=
    Int.tdiv_eq_ediv (by omega) (by omega)
  have hval : (danpa_alloc s bytes libc).arena.chunk_capacity =
      if libc.malloc ≠ NULL ∧ first_use_capacity s ≤ s.chunk_count + 1 then
        first_use_capacity s + first_use_capacity s / 2
      else first_use_capacity s := by
    rw [← htd]
    unfold danpa_alloc first_use_capacity
    by_cases hA : s.allocated_chunks = NULL
    · have hfu : libc.first_use ≠ NULL := by
        rcases ha with h | h
        · exact absurd hA h
        · exact h
      by_cases hm : libc.malloc = NULL <;>
        by_cases hx : INITIAL_MAX_CHUNKS ≤ s.chunk_count + 1 <;>
        simp [hA, hm, hx, hfu, expand_array, Outcome.arena]
    · by_cases hm : libc.malloc = NULL <;>
        by_cases hy : s.chunk_capacity ≤ s.chunk_count + 1 <;>
        simp [hA, hm, hy, expand_array, Outcome.arena]
  refine ⟨?_, ?_, ?_, ?_⟩
  · rw [hval]
    split_ifs with h
    · constructor
      · intro _; exact h
      · intro _; omega
    · constructor
      · intro hne; exact absurd rfl hne
      · intro h'; exact absurd h' h
  · intro hm hx
    rw [hval, if_pos ⟨hm, hx⟩]
    refine ⟨rfl, ?_⟩
    rw [← htd]
    exact (hint hm).2 hx
  · intro h
    rw [hval, if_neg h]
  · unfold danpa_realloc
    rw [if_neg hp]
    cases find_chunk s.slots p s.chunk_count.toNat 0 <;> rfl

/-- Witness for `growth_policy`: `danpa_alloc` and `danpa_realloc(16, 64)` on the arena that
tracks 4095 chunks in 4096 slots. -/
theorem growth_policy_witness :
    (almost_full.allocated_chunks ≠ NULL → INITIAL_MAX_CHUNKS ≤ almost_full.chunk_capacity) ∧
    array_available almost_full ⟨8, 65536, 24, 40⟩ ∧
    ((⟨8, 65536, 24, 40⟩ : Libc).malloc ≠ NULL → no_overflow almost_full) ∧
    (16 : Ptr) ≠ NULL ∧
    (danpa_alloc almost_full 8 ⟨8, 65536, 24, 40⟩).arena.chunk_capacity = 6144 ∧
    (((danpa_alloc almost_full 8 ⟨8, 65536, 24, 40⟩).arena.chunk_capacity ≠
        first_use_capacity almost_full ↔
      ((⟨8, 65536, 24, 40⟩ : Libc).malloc ≠ NULL ∧
        first_use_capacity almost_full ≤ almost_full.chunk_count + 1)) ∧
    ((⟨8, 65536, 24, 40⟩ : Libc).malloc ≠ NULL →
      first_use_capacity almost_full ≤ almost_full.chunk_count + 1 →
      (danpa_alloc almost_full 8 ⟨8, 65536, 24, 40⟩).arena.chunk_capacity =
        first_use_capacity almost_full + first_use_capacity almost_full / 2 ∧
      fits_int (danpa_alloc almost_full 8 ⟨8, 65536, 24, 40⟩).arena.chunk_capacity) ∧
    (¬ ((⟨8, 65536, 24, 40⟩ : Libc).malloc ≠ NULL ∧
        first_use_capacity almost_full ≤ almost_full.chunk_count + 1) →
      (danpa_alloc almost_full 8 ⟨8, 65536, 24, 40⟩).arena.chunk_capacity =
        first_use_capacity almost_full) ∧
    (danpa_realloc almost_full 16 64 ⟨8, 65536, 24, 40⟩).arena.chunk_capacity =
      almost_full.chunk_capacity) :=
  ⟨fun _ => by decide, Or.inl (by decide), fun _ => by decide, by decide, by decide,
    growth_policy almost_full 8 ⟨8, 65536, 24, 40⟩ 16 64 (fun _ => by decide)
      (Or.inl (by decide)) (fun _ => by decide) (by decide)⟩

/-- C9: over any sequence of `n` successful `danpa_alloc` calls from the initial arena whose
`int` computations do not overflow (`run_fits`: line 61 and line 63 stay in the range of
`int` in every call), all `n` calls return, `chunk_count` ends at `n`, and the capacities the
expansions after the first-use one started from add up to at most `3 * n`. Such runs are the runs
of at most 1767175007 calls: the 1767175008th call finds the registry full at capacity
1767175008 and computes 2650762512 at line 63. -/
theorem copied_slots_le_three_per_insert (reqs : List (Nat × Libc))
    (hok : ∀ r ∈ reqs, r.2.alloc_ok) (hfit : run_fits Arena.initial (alloc_calls reqs)) :
    (∃ s', run Arena.initial (alloc_calls reqs) = some (reqs.map (fun r => r.2.malloc), s') ∧
      s'.chunk_count = reqs.length) ∧
    copied_total Arena.initial reqs ≤ 3 * (reqs.length : Int) ∧
    reqs.length ≤ 1767175007 := by
  have hn := (run_fits_iff reqs hok).1 hfit
  obtain ⟨s', e, _, hc⟩ := run_alloc_calls reqs hok Arena.initial (le_refl _)
  refine ⟨⟨s', e, by rw [hc]; simp [Arena.initial]⟩, ?_, hn⟩
  rw [copied_total_initial reqs hok]
  have := sim_cost_le reqs.length (by rw [growth_sequence_32]; omega)
  exact_mod_cast this

set_option maxRecDepth 100000 in
/-- Witness for `copied_slots_le_three_per_insert`: 4096 allocations, the last of which makes
the registry grow from 4096 to 6144 slots, the 4096 slots in use counting as copied. -/
theorem copied_slots_le_three_per_insert_witness :
    (∀ r ∈ fresh_requests 4096, r.2.alloc_ok) ∧
    run_fits Arena.initial (alloc_calls (fresh_requests 4096)) ∧
    copied_total Arena.initial (fresh_requests 4096) = 4096 ∧
    ((∃ s', run Arena.initial (alloc_calls (fresh_requests 4096)) =
        some ((fresh_requests 4096).map (fun r => r.2.malloc), s') ∧
      s'.chunk_count = (fresh_requests 4096).length) ∧
    copied_total Arena.initial (fresh_requests 4096) ≤ 3 * ((fresh_requests 4096).length : Int) ∧
      (fresh_requests 4096).length ≤ 1767175007) :=
  have h : run_fits Arena.initial (alloc_calls (fresh_requests 4096)) :=
    run_fits_fresh_requests 4096 (by norm_num)
  have hc : copied_total Arena.initial (fresh_requests 4096) = 4096 := by
    have e : sim_cost 0 4096 (4095 + 1 + 0) = 4096 + sim_cost 4096 (4096 + 4096 / 2) 0 :=
      sim_cost_block 4095 0 4096 0 (by norm_num)
    have e2 : sim_cost 4096 (4096 + 4096 / 2) 0 = 0 := rfl
    rw [e2] at e
    rw [copied_total_initial _ (fresh_requests_ok 4096), fresh_requests_length, e]
    rfl
  ⟨fresh_requests_ok 4096, h, hc,
    copied_slots_le_three_per_insert (fresh_requests 4096) (fresh_requests_ok 4096) h⟩

/-- C10: `is_struct` is true exactly for the type values of kind BASIC whose base id is at least
`DEFAULT_TYPES_END`; it is false for every POINTER, ARRAY, FUNCTION and OPTIONAL type value,
whatever the payload. -/
theorem is_struct_iff (t : type_t) :
    (is_struct t = true ↔
      ∃ (base_type : base_type_t) (token : Ptr),
        t = type_t.BASIC base_type token ∧ DEFAULT_TYPES_END ≤ base_type) ∧
    (is_struct t = true ↔ t.kind = 0 ∧ ∃ (base_type : base_type_t) (token : Ptr),
        t = type_t.BASIC base_type token ∧ 8 ≤ base_type) ∧
    (∀ (pointer : pointer_type_t) (token : Ptr),
      is_struct (type_t.POINTER pointer token) = false) ∧
    (∀ (array : array_type_t) (token : Ptr), is_struct (type_t.ARRAY array token) = false) ∧
    (∀ (function : function_type_t) (token : Ptr),
      is_struct (type_t.FUNCTION function token) = false) ∧
    (∀ (opt : optional_type_t) (token : Ptr), is_struct (type_t.OPTIONAL opt token) = false) := by
  refine ⟨?_, ?_, fun _ _ => rfl, fun _ _ => rfl, fun _ _ => rfl, fun _ _ => rfl⟩
  · cases t <;> simp [is_struct]
  · cases t <;> simp [is_struct, type_t.kind, DEFAULT_TYPES_END]

/-! Part 8: classification of type values, and `danpa_realloc` on the null handle. -/

/-- C11: `is_indirect_type` is false exactly for the type values `Basic(INT)` and `Basic(REAL)`;
it is true for every other type value: `Basic(STR)`, `Basic(VOID)`, the sentinel basic types,
every structure handle (base id at least `DEFAULT_TYPES_END`), and every POINTER, ARRAY,
FUNCTION and OPTIONAL type value. -/
theorem is_indirect_type_false_iff (t : type_t) :
    (is_indirect_type t = false ↔
      ∃ token : Ptr, t = type_t.BASIC INT token ∨ t = type_t.BASIC REAL token) ∧
    (is_indirect_type t = true ↔
      ¬ ∃ token : Ptr, t = type_t.BASIC INT token ∨ t = type_t.BASIC REAL token) ∧
    (∀ token : Ptr,
      is_indirect_type (type_t.BASIC STR token) = true ∧
      is_indirect_type (type_t.BASIC VOID token) = true ∧
      is_indirect_type (type_t.BASIC SPEC_ARRAY token) = true ∧
      is_indirect_type (type_t.BASIC SPEC_POINTER token) = true ∧
      is_indirect_type (type_t.BASIC SPEC_NULL token) = true ∧
      is_indirect_type (type_t.BASIC SPEC_ANY token) = true) ∧
    (∀ (base_type : base_type_t) (token : Ptr), DEFAULT_TYPES_END ≤ base_type →
      is_indirect_type (type_t.BASIC base_type token) = true) ∧
    (∀ (pointer : pointer_type_t) (token : Ptr),
      is_indirect_type (type_t.POINTER pointer token) = true) ∧
    (∀ (array : array_type_t) (token : Ptr),
      is_indirect_type (type_t.ARRAY array token) = true) ∧
    (∀ (function : function_type_t) (token : Ptr),
      is_indirect_type (type_t.FUNCTION function token) = true) ∧
    (∀ (opt : optional_type_t) (token : Ptr),
      is_indirect_type (type_t.OPTIONAL opt token) = true) := by
  have key : is_indirect_type t = false ↔
      ∃ token : Ptr, t = type_t.BASIC INT token ∨ t = type_t.BASIC REAL token := by
    cases t with
    | BASIC b tok =>
      simp only [is_indirect_type, decide_eq_false_iff_not, not_and_or, not_not,
        type_t.BASIC.injEq]
      constructor
      · rintro (h | h)
        · exact ⟨tok, Or.inl ⟨h, rfl⟩⟩
        · exact ⟨tok, Or.inr ⟨h, rfl⟩⟩
      · rintro ⟨_, ⟨h, _⟩ | ⟨h, _⟩⟩
        · exact Or.inl h
        · exact Or.inr h
    | POINTER _ _ => simp [is_indirect_type]
    | ARRAY _ _ => simp [is_indirect_type]
    | FUNCTION _ _ => simp [is_indirect_type]
    | OPTIONAL _ _ => simp [is_indirect_type]
  refine ⟨key, ?_, ?_, ?_, fun _ _ => rfl, fun _ _ => rfl, fun _ _ => rfl, fun _ _ => rfl⟩
  · rw [← key]; cases is_indirect_type t <;> simp
  · intro token
    exact ⟨rfl, rfl, rfl, rfl, rfl, rfl⟩
  · intro b token hb
    have h8 : (8 : Int) ≤ b := hb
    simp only [is_indirect_type, decide_eq_true_eq, INT, REAL]
    constructor <;> intro h0 <;> rw [h0] at h8 <;> exact absurd h8 (by decide)

/-- C12: every structure type is an indirect type: a type value on which `is_struct` is true
makes `is_indirect_type` true, and is neither `Basic(INT)` nor `Basic(REAL)`. -/
theorem is_struct_imp_is_indirect_type (t : type_t) (h : is_struct t = true) :
    is_indirect_type t = true ∧
    (∀ token : Ptr, t ≠ type_t.BASIC INT token ∧ t ≠ type_t.BASIC REAL token) := by
  cases t with
  | BASIC b tok =>
    simp only [is_struct, decide_eq_true_eq, DEFAULT_TYPES_END, ge_iff_le] at h
    have h8 : (8 : Int) ≤ b := h
    have hne : b ≠ INT ∧ b ≠ REAL := by
      simp only [INT, REAL]
      constructor <;> intro h0 <;> rw [h0] at h8 <;> exact absurd h8 (by decide)
    refine ⟨?_, ?_⟩
    · simp only [is_indirect_type, decide_eq_true_eq]
      exact hne
    · intro token
      simp only [ne_eq, type_t.BASIC.injEq, not_and]
      exact ⟨fun hb => absurd hb hne.1, fun hb => absurd hb hne.2⟩
  | POINTER _ _ => simp [is_struct] at h
  | ARRAY _ _ => simp [is_struct] at h
  | FUNCTION _ _ => simp [is_struct] at h
  | OPTIONAL _ _ => simp [is_struct] at h

/-- Witness for `is_struct_imp_is_indirect_type`: the handle of the first structure slot. -/
theorem is_struct_imp_is_indirect_type_witness :
    is_struct (type_t.BASIC 8 0) = true ∧
    (is_indirect_type (type_t.BASIC 8 0) = true ∧
      (∀ token : Ptr, type_t.BASIC 8 0 ≠ type_t.BASIC INT token ∧
        type_t.BASIC 8 0 ≠ type_t.BASIC REAL token)) :=
  ⟨by decide, is_struct_imp_is_indirect_type (type_t.BASIC 8 0) (by decide)⟩

/-- C13: a basic type is a structure handle exactly when its id is at least
`DEFAULT_TYPES_END`, which is 8: `is_struct` is false on `Basic(b)` for the eight built-in and
sentinel ids 0..7 and for `INVALID_TYPE` (-1), and true for every id from 8 on, the id of the
first structure slot. -/
theorem is_struct_basic (token : Ptr) :
    (∀ b : base_type_t, is_struct (type_t.BASIC b token) = true ↔ DEFAULT_TYPES_END ≤ b) ∧
    DEFAULT_TYPES_END = 8 ∧
    (INT = 0 ∧ REAL = 1 ∧ STR = 2 ∧ VOID = 3 ∧ SPEC_ARRAY = 4 ∧ SPEC_POINTER = 5 ∧
      SPEC_NULL = 6 ∧ SPEC_ANY = 7 ∧ INVALID_TYPE = -1) ∧
    is_struct (type_t.BASIC INT token) = false ∧
    is_struct (type_t.BASIC REAL token) = false ∧
    is_struct (type_t.BASIC STR token) = false ∧
    is_struct (type_t.BASIC VOID token) = false ∧
    is_struct (type_t.BASIC SPEC_ARRAY token) = false ∧
    is_struct (type_t.BASIC SPEC_POINTER token) = false ∧
    is_struct (type_t.BASIC SPEC_NULL token) = false ∧
    is_struct (type_t.BASIC SPEC_ANY token) = false ∧
    is_struct (type_t.BASIC INVALID_TYPE token) = false ∧
    (∀ b : base_type_t, 8 ≤ b → is_struct (type_t.BASIC b token) = true) ∧
    (∀ b : base_type_t, b < 8 → is_struct (type_t.BASIC b token) = false) ∧
    is_struct (type_t.BASIC 8 token) = true := by
  refine ⟨?_, rfl, ⟨rfl, rfl, rfl, rfl, rfl, rfl, rfl, rfl, rfl⟩, rfl, rfl, rfl, rfl, rfl, rfl,
    rfl, rfl, rfl, ?_, ?_, rfl⟩
  · intro b; simp [is_struct]
  · intro b hb; simp [is_struct, DEFAULT_TYPES_END, hb]
  · intro b hb; simp [is_struct, DEFAULT_TYPES_END, hb]

/-- C16: `danpa_realloc` with the null handle is `danpa_alloc`: for every arena and size, the
two calls have the same outcome, that is the same handle or the same abort, and leave the same
entries, `chunk_count`, `chunk_capacity` and `allocated_memory`. -/
theorem danpa_realloc_null_eq_danpa_alloc (s : Arena) (n : Nat) (libc : Libc) :
    danpa_realloc s NULL n libc = danpa_alloc s n libc ∧
    (danpa_realloc s NULL n libc).handle = (danpa_alloc s n libc).handle ∧
    (danpa_realloc s NULL n libc).log = (danpa_alloc s n libc).log ∧
    (danpa_realloc s NULL n libc).arena.slots = (danpa_alloc s n libc).arena.slots ∧
    (danpa_realloc s NULL n libc).arena.chunk_count = (danpa_alloc s n libc).arena.chunk_count ∧
    (danpa_realloc s NULL n libc).arena.chunk_capacity =
      (danpa_alloc s n libc).arena.chunk_capacity ∧
    (danpa_realloc s NULL n libc).arena.allocated_memory =
      (danpa_alloc s n libc).arena.allocated_memory ∧
    (danpa_realloc s NULL n libc).arena.allocated_chunks =
      (danpa_alloc s n libc).arena.allocated_chunks := by
  have e : danpa_realloc s NULL n libc = danpa_alloc s n libc := by
    unfold danpa_realloc; rw [if_pos rfl]
  rw [e]
  exact ⟨rfl, rfl, rfl, rfl, rfl, rfl, rfl, rfl⟩

/-! Part 9: the allocation statistic, the bounds of the registry, and double frees. -/

theorem wrap_int_add (x y : Int) : wrap_int (wrap_int x + y) = wrap_int (x + y) := by
  unfold wrap_int; omega

theorem wrap_int_range (x : Int) :
    -2 ^ 31 ≤ wrap_int x ∧ wrap_int x < 2 ^ 31 ∧ (wrap_int x - x) % 2 ^ 32 = 0 := by
  unfold wrap_int; omega

theorem danpa_alloc_allocated_memory (s : Arena) (bytes : Nat) (libc : Libc) (h : Ptr)
    (s' : Arena) (e : danpa_alloc s bytes libc = Outcome.returned h s') :
    s'.allocated_memory = wrap_int (s.allocated_memory + bytes) := by
  unfold danpa_alloc at e
  by_cases hm : libc.malloc = NULL
  · simp only [hm, if_true] at e; cases e
  · simp only [hm, if_false] at e
    split_ifs at e <;> cases e <;> rfl

theorem danpa_realloc_allocated_memory (s : Arena) (p : Ptr) (n : Nat) (libc : Libc)
    (hp : p ≠ NULL) :
    (danpa_realloc s p n libc).arena.allocated_memory = s.allocated_memory := by
  unfold danpa_realloc
  rw [if_neg hp]
  cases find_chunk s.slots p s.chunk_count.toNat 0 <;> rfl

theorem perform_allocated_memory (c : Call) (s : Arena) (libc : Libc) (h : Ptr) (s' : Arena)
    (a : Int) (ha : s.allocated_memory = wrap_int a)
    (e : c.perform s libc = Outcome.returned h s') :
    s'.allocated_memory = wrap_int (a + c.allocated_bytes) := by
  cases c with
  | alloc bytes =>
    simp only [Call.perform] at e
    rw [danpa_alloc_allocated_memory s bytes libc h s' e, ha, wrap_int_add]
    rfl
  | realloc p n =>
    by_cases hp : p = NULL
    · simp only [Call.perform, danpa_realloc, hp, if_true] at e
      rw [danpa_alloc_allocated_memory s n libc h s' e, ha, wrap_int_add]
      simp [Call.allocated_bytes, hp]
    · have h1 := danpa_realloc_allocated_memory s p n libc hp
      simp only [Call.perform] at e
      rw [e] at h1
      simp only [Outcome.arena] at h1
      rw [h1, ha]
      simp [Call.allocated_bytes, hp]

theorem run_cons_some (c : Call) (libc : Libc) (rest : List (Call × Libc)) (s : Arena)
    (handles : List Ptr) (s' : Arena) (e : run s ((c, libc) :: rest) = some (handles, s')) :
    ∃ (h : Ptr) (s1 : Arena) (rest_handles : List Ptr),
      c.perform s libc = Outcome.returned h s1 ∧ run s1 rest = some (rest_handles, s') ∧
      handles = h :: rest_handles := by
  simp only [run] at e
  cases hc : c.perform s libc with
  | aborted l t => rw [hc] at e; cases e
  | crashed t => rw [hc] at e; cases e
  | returned h s1 =>
    rw [hc] at e
    simp only at e
    cases hr : run s1 rest with
    | none => rw [hr] at e; cases e
    | some res =>
      rw [hr] at e
      simp only [Option.map_some', Option.some.injEq, Prod.mk.injEq] at e
      exact ⟨h, s1, res.1, rfl, by rw [← e.2, hr], e.1.symm⟩

theorem run_allocated_memory (calls : List (Call × Libc)) :
    ∀ (s : Arena) (a : Int) (handles : List Ptr) (s' : Arena),
      s.allocated_memory = wrap_int a → run s calls = some (handles, s') →
      s'.allocated_memory = wrap_int (a + allocated_bytes_total calls) := by
  induction calls with
  | nil =>
    intro s a handles s' ha e
    simp only [run, Option.some.injEq, Prod.mk.injEq] at e
    rw [← e.2, ha]
    simp [allocated_bytes_total]
  | cons cl rest ih =>
    intro s a handles s' ha e
    obtain ⟨h, s1, rest_handles, hc, hr, _⟩ := run_cons_some cl.1 cl.2 rest s handles s' e
    have h1 := perform_allocated_memory cl.1 s cl.2 h s1 a ha hc
    have h2 := ih s1 _ rest_handles s' h1 hr
    rw [h2]
    simp only [allocated_bytes_total, List.map_cons, List.sum_cons]
    push_cast
    rw [add_assoc]

/-- C14 fails for a tracked null handle: after an allocation and a `danpa_realloc(16, 0)` for
which `realloc` returned null, the null handle is the tracked entry of slot 0, and
`danpa_realloc(NULL, 8)` changes `allocated_memory` from 4 to 12. -/
theorem danpa_realloc_tracked_null_adds_bytes :
    ∃ (handles : List Ptr) (s : Arena),
      run Arena.initial null_tracking_calls = some (handles, s) ∧
      is_tracked s NULL ∧
      s.allocated_memory = 4 ∧
      (danpa_realloc s NULL 8 ⟨8, 32, 8, 0⟩).handle = some 32 ∧
      (danpa_realloc s NULL 8 ⟨8, 32, 8, 0⟩).arena.allocated_memory = 12 :=
  ⟨_, _, rfl, ⟨0, by decide, by decide, by decide⟩, by decide, by decide, by decide⟩

/-- C14, as the code has it: in every state reached from the initial arena by calls that
returned, `allocated_memory` is the sum of the byte sizes passed to `danpa_alloc`, directly or
through `danpa_realloc` with the null handle, reduced modulo 2^32 into the range of a signed
`int`; `danpa_realloc` on a non-null handle leaves `allocated_memory` unchanged; and
`cleanup_memory` reports that `allocated_memory`, and `chunk_count` and `chunk_capacity` as the
last operation left them. -/
theorem allocated_memory_is_requested_total (ptr_size : Int) (calls : List (Call × Libc))
    (handles : List Ptr) (s : Arena) (p : Ptr) (n : Nat) (libc : Libc)
    (hrun : run Arena.initial calls = some (handles, s)) (hp : p ≠ NULL) :
    s.allocated_memory = wrap_int (allocated_bytes_total calls) ∧
    (-2 ^ 31 ≤ s.allocated_memory ∧ s.allocated_memory < 2 ^ 31 ∧
      (s.allocated_memory - allocated_bytes_total calls) % 2 ^ 32 = 0) ∧
    (danpa_realloc s p n libc).arena.allocated_memory = s.allocated_memory ∧
    (cleanup_memory ptr_size s).printed.1 = wrap_int (allocated_bytes_total calls) ∧
    (cleanup_memory ptr_size s).printed.2.2.1 = s.chunk_count ∧
    (cleanup_memory ptr_size s).printed.2.2.2 = s.chunk_capacity := by
  have h0 : Arena.initial.allocated_memory = wrap_int 0 := by decide
  have h := run_allocated_memory calls Arena.initial 0 handles s h0 hrun
  rw [zero_add] at h
  have hpr := cleanup_memory_printed ptr_size s
  refine ⟨h, ?_, danpa_realloc_allocated_memory s p n libc hp, by rw [hpr]; exact h,
    by rw [hpr], by rw [hpr]⟩
  rw [h]
  exact wrap_int_range _

/-- Witness for `allocated_memory_is_requested_total`: the six calls of `sample_calls`, which
pass 4 + 4 + 4 + 4 bytes to `danpa_alloc`, followed by `danpa_realloc(48, 100)`. -/
theorem allocated_memory_is_requested_total_witness :
    ∃ (handles : List Ptr) (s : Arena),
      run Arena.initial sample_calls = some (handles, s) ∧ (48 : Ptr) ≠ NULL ∧
      s.allocated_memory = 16 ∧
      (s.allocated_memory = wrap_int (allocated_bytes_total sample_calls) ∧
       (-2 ^ 31 ≤ s.allocated_memory ∧ s.allocated_memory < 2 ^ 31 ∧
         (s.allocated_memory - allocated_bytes_total sample_calls) % 2 ^ 32 = 0) ∧
       (danpa_realloc s 48 100 ⟨8, 0, 8, 80⟩).arena.allocated_memory = s.allocated_memory ∧
       (cleanup_memory 8 s).printed.1 = wrap_int (allocated_bytes_total sample_calls) ∧
       (cleanup_memory 8 s).printed.2.2.1 = s.chunk_count ∧
       (cleanup_memory 8 s).printed.2.2.2 = s.chunk_capacity) :=
  ⟨_, _, rfl, by decide, by decide,
    allocated_memory_is_requested_total 8 sample_calls _ _ 48 100 ⟨8, 0, 8, 80⟩ rfl (by decide)⟩

theorem run_bounds (calls : List (Call × Libc)) :
    ∀ (s : Arena) (handles : List Ptr) (s' : Arena), (s = Arena.initial ∨ Bounds s) →
      (∀ cl ∈ calls, expansion_ok cl.1 cl.2) → run s calls = some (handles, s') →
      (s' = Arena.initial ∨ Bounds s') ∧ s.chunk_capacity ≤ s'.chunk_capacity := by
  induction calls with
  | nil =>
    intro s handles s' hs _ e
    simp only [run, Option.some.injEq, Prod.mk.injEq] at e
    rw [← e.2]
    exact ⟨hs, le_refl _⟩
  | cons cl rest ih =>
    intro s handles s' hs hok e
    obtain ⟨h, s1, rest_handles, hc, hr, _⟩ := run_cons_some cl.1 cl.2 rest s handles s' e
    obtain ⟨hb1, hle1⟩ := perform_bounds cl.1 s cl.2 h s1 hs (hok cl (List.mem_cons_self _ _)) hc
    obtain ⟨hb2, hle2⟩ := ih s1 rest_handles s' (Or.inr hb1)
      (fun q hq => hok q (List.mem_cons_of_mem _ hq)) hr
    exact ⟨hb2, le_trans hle1 hle2⟩

/-- C15: let `s` be a state reached from the initial arena by `danpa_alloc` and `danpa_realloc`
calls that returned, the reallocs of the tracking array having succeeded (counters in the
integers). The index `chunk_count` that a `danpa_alloc` on `s` writes is within the capacity
the array has at that write. After one more call that returns,
`0 <= chunk_count < chunk_capacity`, `chunk_capacity >= 0x1000`, the capacity is not smaller
than before the call, there is a tracking array, and every index `i < chunk_count`, the ones
`danpa_realloc` and `cleanup_memory` read, is below `chunk_capacity`. -/
theorem registry_bounds (calls : List (Call × Libc)) (handles : List Ptr) (s : Arena)
    (c : Call) (libc : Libc) (h : Ptr) (s' : Arena)
    (hok : ∀ cl ∈ calls, expansion_ok cl.1 cl.2)
    (hrun : run Arena.initial calls = some (handles, s))
    (hc : expansion_ok c libc) (hstep : c.perform s libc = Outcome.returned h s') :
    (0 ≤ s.chunk_count ∧ s.chunk_count < first_use_capacity s) ∧
    (0 ≤ s'.chunk_count ∧ s'.chunk_count < s'.chunk_capacity) ∧
    0x1000 ≤ s'.chunk_capacity ∧
    s.chunk_capacity ≤ s'.chunk_capacity ∧
    s'.allocated_chunks ≠ NULL ∧
    (∀ i : Int, 0 ≤ i → i < s'.chunk_count → i < s'.chunk_capacity) ∧
    (∀ i : Int, 0 ≤ i → i < s.chunk_count → i < s.chunk_capacity) := by
  obtain ⟨hs, _⟩ := run_bounds calls Arena.initial handles s (Or.inl rfl) hok hrun
  obtain ⟨hb, hle⟩ := perform_bounds c s libc h s' hs hc hstep
  have hcap : (0x1000 : Int) ≤ s'.chunk_capacity := hb.capacity_ge
  refine ⟨?_, ⟨hb.count_nonneg, hb.count_lt⟩, hcap, hle, hb.array, ?_, ?_⟩
  · rcases hs with rfl | hbs
    · simp [Arena.initial, first_use_capacity, INITIAL_MAX_CHUNKS, NULL]
    · refine ⟨hbs.count_nonneg, ?_⟩
      unfold first_use_capacity
      rw [if_neg hbs.array]
      exact hbs.count_lt
  · intro i _ hi
    exact lt_trans hi hb.count_lt
  · intro i h0 hi
    rcases hs with rfl | hbs
    · simp only [Arena.initial] at hi; omega
    · exact lt_trans hi hbs.count_lt

/-- Witness for `registry_bounds`: the six calls of `sample_calls`, then one more allocation. -/
theorem registry_bounds_witness :
    ∃ (handles : List Ptr) (s s' : Arena),
      (∀ cl ∈ sample_calls, expansion_ok cl.1 cl.2) ∧
      run Arena.initial sample_calls = some (handles, s) ∧
      expansion_ok (Call.alloc 24) ⟨8, 80, 8, 0⟩ ∧
      (Call.alloc 24).perform s ⟨8, 80, 8, 0⟩ = Outcome.returned 80 s' ∧
      s'.chunk_count = 5 ∧ s'.chunk_capacity = 4096 ∧
      ((0 ≤ s.chunk_count ∧ s.chunk_count < first_use_capacity s) ∧
       (0 ≤ s'.chunk_count ∧ s'.chunk_count < s'.chunk_capacity) ∧
       0x1000 ≤ s'.chunk_capacity ∧
       s.chunk_capacity ≤ s'.chunk_capacity ∧
       s'.allocated_chunks ≠ NULL ∧
       (∀ i : Int, 0 ≤ i → i < s'.chunk_count → i < s'.chunk_capacity) ∧
       (∀ i : Int, 0 ≤ i → i < s.chunk_count → i < s.chunk_capacity)) :=
  ⟨_, _, _, by decide, rfl, by decide, rfl, by decide, by decide,
    registry_bounds sample_calls _ _ (Call.alloc 24) ⟨8, 80, 8, 0⟩ 80 _ (by decide) rfl
      (by decide) rfl⟩

theorem tracked_nodup (s : Arena)
    (hd : ∀ i j : Int, 0 ≤ i → i < s.chunk_count → 0 ≤ j → j < s.chunk_count →
      s.slots i = s.slots j → i = j) : (tracked s).Nodup := by
  unfold tracked
  apply List.Nodup.map_on _ (List.nodup_range _)
  intro x hx y hy hxy
  rw [List.mem_range] at hx hy
  have := hd (x : Int) (y : Int) (by omega) (by omega) (by omega) (by omega) hxy
  omega

/-- C17: take a state reached from the initial arena by `danpa_alloc` and `danpa_realloc` calls
that all returned, each C library call having succeeded with a non-null block different from
every other live block (`malloc` and the `realloc` of a chunk, which may also resize in place),
the reallocs of the tracking array having succeeded, no `int` computation having overflowed.
The tracked entries `allocated_chunks[0..chunk_count-1]` are pairwise distinct and non-null;
`cleanup_memory` runs to its end, its loop frees no address twice and frees each tracked chunk
exactly once; `chunk_count` and `chunk_capacity` are values of type `int`. -/
theorem no_double_free (ptr_size : Int) (calls : List (Call × Libc)) (s : Arena)
    (live : List Ptr)
    (hexp : ∀ cl ∈ calls, expansion_ok cl.1 cl.2)
    (hnn : ∀ cl ∈ calls, realloc_nonnull cl.1 cl.2)
    (hfit : run_fits Arena.initial calls)
    (hrun : run_live Arena.initial [] calls = some (s, live)) :
    (∀ i j : Int, 0 ≤ i → i < s.chunk_count → 0 ≤ j → j < s.chunk_count → i ≠ j →
      s.slots i ≠ s.slots j) ∧
    (∀ i : Int, 0 ≤ i → i < s.chunk_count → s.slots i ≠ NULL) ∧
    (tracked s).Nodup ∧
    NULL ∉ tracked s ∧
    (cleanup_memory ptr_size s).crashed = false ∧
    (cleanup_memory ptr_size s).freed_chunks = tracked s ∧
    (cleanup_memory ptr_size s).freed_chunks.Nodup ∧
    (∀ p : Ptr, p ∈ tracked s → (cleanup_memory ptr_size s).freed_chunks.count p = 1) ∧
    (fits_int s.chunk_count ∧ fits_int s.chunk_capacity) := by
  obtain ⟨inv, hn⟩ := run_live_inv calls Arena.initial [] s live LiveInv.initial hexp hrun
  have nn := hn hnn NoNull.initial_arena
  have hb := run_live_bounds calls Arena.initial [] s live (Or.inl rfl) hexp hrun
  have hint := run_live_fits calls Arena.initial [] s live ⟨by decide, by decide⟩ hfit hrun
  obtain ⟨hfreed, hcr⟩ := cleanup_memory_of_bounds ptr_size s hb
  have hne : ∀ i : Int, 0 ≤ i → i < s.chunk_count → s.slots i ≠ NULL :=
    fun i hi0 hi1 he => nn.tracked_nonnull ⟨i, hi0, hi1, he⟩
  have hd : ∀ i j : Int, 0 ≤ i → i < s.chunk_count → 0 ≤ j → j < s.chunk_count →
      s.slots i = s.slots j → i = j :=
    fun i j hi0 hi1 hj0 hj1 he => inv.distinct i j hi0 hi1 hj0 hj1 he (hne i hi0 hi1)
  have hnd := tracked_nodup s hd
  refine ⟨?_, hne, hnd, ?_, hcr, hfreed, by rw [hfreed]; exact hnd, ?_, hint⟩
  · intro i j hi0 hi1 hj0 hj1 hij he
    exact hij (hd i j hi0 hi1 hj0 hj1 he)
  · intro hz
    exact nn.tracked_nonnull ((mem_tracked_iff s NULL).1 hz)
  · intro p hp
    rw [hfreed]
    exact List.count_eq_one_of_mem hnd hp

/-- Witness for `no_double_free`: the six calls of `sample_calls`, after which `cleanup_memory`
frees 48, 32, 16 and 64. -/
theorem no_double_free_witness :
    ∃ (s : Arena) (live : List Ptr),
      (∀ cl ∈ sample_calls, expansion_ok cl.1 cl.2) ∧
      (∀ cl ∈ sample_calls, realloc_nonnull cl.1 cl.2) ∧
      run_fits Arena.initial sample_calls ∧
      run_live Arena.initial [] sample_calls = some (s, live) ∧
      (cleanup_memory 8 s).freed_chunks = [48, 32, 16, 64] ∧
      ((∀ i j : Int, 0 ≤ i → i < s.chunk_count → 0 ≤ j → j < s.chunk_count → i ≠ j →
         s.slots i ≠ s.slots j) ∧
       (∀ i : Int, 0 ≤ i → i < s.chunk_count → s.slots i ≠ NULL) ∧
       (tracked s).Nodup ∧
       NULL ∉ tracked s ∧
       (cleanup_memory 8 s).crashed = false ∧
       (cleanup_memory 8 s).freed_chunks = tracked s ∧
       (cleanup_memory 8 s).freed_chunks.Nodup ∧
       (∀ p : Ptr, p ∈ tracked s → (cleanup_memory 8 s).freed_chunks.count p = 1) ∧
       (fits_int s.chunk_count ∧ fits_int s.chunk_capacity)) :=
  ⟨_, _, by decide, by decide, by decide, rfl, by decide,
    no_double_free 8 sample_calls _ _ (by decide) (by decide) (by decide) rfl⟩

end DanPa
